import Mathlib

/-!
Verification development for the truck B-rep kernel (shallow embedding).

The embedding covers:
* the topological layer used by `truck_shape/src/curve_element.rs`
  (vertices, oriented edges, wires, faces, the builder/director state);
  the `Wire`/`Face`/`Director` operations themselves are not part of the
  given sources, so they are modelled from the specification (see the
  doc comments marked "Modelled from the spec");
* the homotopy dispatch and the open/closed homotopy constructions,
  translated statement-by-statement from `curve_element.rs`;
* the face-tessellation boundary pass of `truck-rendimpl/src/shaperend.rs`
  (`presearch`, `face_buffer`, `IntoInstance for Shell/Solid`);
* rational B-spline evaluation (de Boor) for the two doc examples of
  `truck_geometry/src/lib.rs` (the unit circle curve and unit sphere
  surface), with `f64` arithmetic modelled by exact rationals.
-/

namespace Truck

/-- Topological vertex: identity only (spec §3). -/
structure Vertex where
  id : Nat
deriving DecidableEq, Repr

/-- Topological edge: oriented endpoints, a stable identity, and an
orientation bit.  `front`/`back` are already orientation-adjusted;
`inverse` is the same identity with swapped endpoints and flipped bit
(spec §3). -/
structure Edge where
  id : Nat
  front : Vertex
  back : Vertex
  ori : Bool
deriving DecidableEq, Repr

/-- Inverse edge: same identity, flipped orientation bit, endpoints
exchanged (spec §3, §4.3). -/
def Edge.inverse (e : Edge) : Edge :=
  { id := e.id, front := e.back, back := e.front, ori := !e.ori }

/-- Wire: ordered sequence of edges (spec §3). -/
abbrev Wire := List Edge

/-- Front vertex of a wire, `none` when the wire is empty. -/
def Wire.frontV? (w : Wire) : Option Vertex :=
  (List.head? w).map Edge.front

/-- Back vertex of a wire, `none` when the wire is empty. -/
def Wire.backV? (w : Wire) : Option Vertex :=
  (List.getLast? w).map Edge.back

/-- Modelled from the spec (§4.3, `Wire::is_closed`, code not under src/):
true iff nonempty and `front_vertex() == back_vertex()`. -/
def Wire.isClosed (w : Wire) : Bool :=
  !(List.isEmpty w) && decide (Wire.frontV? w = Wire.backV? w)

/-- `inverse()`: reverses the order and flips every edge orientation
(spec §4.3). -/
def Wire.inverse (w : Wire) : Wire :=
  (List.map Edge.inverse w).reverse

/-- The chain condition of the wire data model (spec §3): for every
consecutive pair, `edges[i].back == edges[i+1].front`. -/
def Wire.continuous : Wire → Bool
  | [] => true
  | [_] => true
  | e₁ :: e₂ :: rest => decide (e₁.back = e₂.front) && Wire.continuous (e₂ :: rest)

/-- Error kinds of the kernel (spec §7); only the variants reachable
from the embedded operations are listed. -/
inductive Err where
  | CannotAddEdge
  | EmptyWire
  | NotClosedWire
  | NoGeometry
  | DifferentHomotopyType
deriving DecidableEq, Repr

/-- Modelled from the spec (§4.3, `Wire::push_back`, code not under src/):
requires `wire.back_vertex() == edge.front_vertex()` or the wire empty;
else fails with `CannotAddEdge`. -/
def Wire.pushBack (w : Wire) (e : Edge) : Except Err Wire :=
  if List.isEmpty w then Except.ok (w ++ [e])
  else if Wire.backV? w = some e.front then Except.ok (w ++ [e])
  else Except.error Err.CannotAddEdge

/-- Modelled from the spec (§4.3, `Wire::append`, code not under src/):
concatenation with the same compatibility check at the join. -/
def Wire.appendW (w other : Wire) : Except Err Wire :=
  if List.isEmpty w ∨ List.isEmpty other then Except.ok (w ++ other)
  else if Wire.backV? w = Wire.frontV? other then Except.ok (w ++ other)
  else Except.error Err.CannotAddEdge

/-- The Rust call sites `wire.push_back(edge);` discard the returned
result, so a failing push leaves the wire unchanged. -/
def Wire.pushDrop (w : Wire) (e : Edge) : Wire :=
  match Wire.pushBack w e with
  | Except.ok w' => w'
  | Except.error _ => w

/-- The Rust call sites `wire.append(other);` discard the returned
result, so a failing append leaves the wire unchanged. -/
def Wire.appendDrop (w other : Wire) : Wire :=
  match Wire.appendW w other with
  | Except.ok w' => w'
  | Except.error _ => w

/-- Symbolic geometric carrier of an edge or a wire: a degree-1 line
through two point handles, a stored curve, reversal, concatenation.
The numeric content of curves is irrelevant to the topological claims;
what matters is which carrier is attached where. -/
inductive Curve where
  | line (p₀ p₁ : Nat)
  | stored (cid : Nat)
  | inv (c : Curve)
  | concatC (c₀ c₁ : Curve)
deriving DecidableEq, Repr

/-- Symbolic surface carrier: `BSplineSurface::homotopy(c0, c1)` lofts
two curves (spec §4.2). -/
inductive Surface where
  | homotopy (c₀ c₁ : Curve)
deriving DecidableEq, Repr

/-- Face: boundary wire paired with its registered surface carrier
(`Face::try_new` plus the immediately following `director.insert`). -/
structure Face where
  boundary : Wire
  surface : Surface
deriving DecidableEq, Repr

/-- Modelled from the spec (§4.3, `Face::try_new`, code not under src/):
fails with `NotClosedWire` if the wire is not closed, `EmptyWire` if it
is empty.  The surface registered right after creation is stored in the
face. -/
def Face.tryNew (w : Wire) (s : Surface) : Except Err Face :=
  if List.isEmpty w then Except.error Err.EmptyWire
  else if Wire.isClosed w then Except.ok { boundary := w, surface := s }
  else Except.error Err.NotClosedWire

/-- Shell: list of faces (`Ok(vec![face].into())`). -/
abbrev Shell := List Face

/-- Modelled from the spec (§4.4/§4.5, `Director`, code not under src/):
the geometry binding (vertex id → point handle, edge id → curve) plus
the monotone identity counter of the builder session. -/
structure Director where
  nextId : Nat
  points : List (Nat × Nat)
  curves : List (Nat × Curve)
deriving DecidableEq, Repr

/-- Point handle bound to a vertex, if any. -/
def Director.lookupPoint (d : Director) (v : Vertex) : Option Nat :=
  (List.find? (fun pr => pr.1 == v.id) d.points).map Prod.snd

/-- Curve bound to an edge identity, if any. -/
def Director.lookupCurve (d : Director) (eid : Nat) : Option Curve :=
  (List.find? (fun pr => pr.1 == eid) d.curves).map Prod.snd

/-- Modelled from the spec (§4.4, `oriented_curve`): the stored curve,
reversed when the orientation bit is set; `NoGeometry` on a lookup miss. -/
def Director.getOrientedCurve (d : Director) (e : Edge) : Except Err Curve :=
  match Director.lookupCurve d e.id with
  | none => Except.error Err.NoGeometry
  | some c => Except.ok (if e.ori then Curve.inv c else c)

/-- Modelled from the spec (§4.5, `Builder::line`): a fresh edge from
`v₀` to `v₁` carrying the degree-1 curve through the two bound points;
`NoGeometry` when either vertex has no point. -/
def Director.line (d : Director) (v₀ v₁ : Vertex) : Except Err (Edge × Director) :=
  match Director.lookupPoint d v₀, Director.lookupPoint d v₁ with
  | some p₀, some p₁ =>
      Except.ok ({ id := d.nextId, front := v₀, back := v₁, ori := false },
        { nextId := d.nextId + 1,
          points := d.points,
          curves := (d.nextId, Curve.line p₀ p₁) :: d.curves })
  | _, _ => Except.error Err.NoGeometry

/-- Modelled from the spec (§4.4, `bspline_by_wire`): fold the oriented
per-edge curves through `concat` — the `CurveCollector` pattern of the
geometry crate; an empty wire yields no curve. -/
def Director.bsplineByWireGo (d : Director) : List Edge → Option Curve → Except Err Curve
  | [], none => Except.error Err.NoGeometry
  | [], some c => Except.ok c
  | e :: rest, acc =>
      match Director.getOrientedCurve d e with
      | Except.error er => Except.error er
      | Except.ok c =>
          Director.bsplineByWireGo d rest
            (some (match acc with
                   | none => c
                   | some c₀ => Curve.concatC c₀ c))

/-- `bspline_by_wire` entry point. -/
def Director.bsplineByWire (d : Director) (w : Wire) : Except Err Curve :=
  Director.bsplineByWireGo d w none

/-- Result of a fallible Rust computation that may additionally panic
(`unwrap` of `None`): `ok`, `err`, or `panicked`. -/
inductive Outcome (α : Type) where
  | ok (a : α)
  | err (e : Err)
  | panicked
deriving DecidableEq, Repr

/-- The `CurveElement` operands of `homotopy`: an `Edge` or a `Wire`
(tagged variant, spec §9). -/
inductive CElem where
  | edge (e : Edge)
  | wire (w : Wire)
deriving DecidableEq, Repr

/-- `front_vertex`: an edge's front; a wire's front vertex (the Rust
`Wire` impl unwraps the option — `none` here marks that panic). -/
def CElem.frontV? : CElem → Option Vertex
  | CElem.edge e => some e.front
  | CElem.wire w => Wire.frontV? w

/-- `back_vertex`, as `frontV?`. -/
def CElem.backV? : CElem → Option Vertex
  | CElem.edge e => some e.back
  | CElem.wire w => Wire.backV? w

/-- `is_closed`: `false` unconditionally for an edge
(`curve_element.rs` line 89); the wire predicate for a wire. -/
def CElem.isClosed : CElem → Bool
  | CElem.edge _ => false
  | CElem.wire w => Wire.isClosed w

/-- `clone_wire`: `Wire::by_slice(&[*self])` for an edge; a clone for a
wire. -/
def CElem.cloneWire : CElem → Wire
  | CElem.edge e => [e]
  | CElem.wire w => w

/-- The edge sequence traversed by `for_each`. -/
def CElem.edges : CElem → List Edge
  | CElem.edge e => [e]
  | CElem.wire w => w

/-- `split_wire`: `None` for an edge; for a wire of length ≥ 2, the
prefix of `len / 2` edges and the remaining suffix (`split_off`),
otherwise `None` (`curve_element.rs` lines 102–110). -/
def CElem.splitWire : CElem → Option (Wire × Wire)
  | CElem.edge _ => none
  | CElem.wire w =>
      if w.length < 2 then none
      else some (w.take (w.length / 2), w.drop (w.length / 2))

/-- `get_geometry`: `get_oriented_curve` for an edge, `bspline_by_wire`
for a wire. -/
def CElem.getGeometry (c : CElem) (d : Director) : Except Err Curve :=
  match c with
  | CElem.edge e => Director.getOrientedCurve d e
  | CElem.wire w => Director.bsplineByWire d w

/-- `open_homotopy` (`curve_element.rs` lines 28–48), translated
statement by statement.  The two `wire.push_back(..);` statements and
the `for_each` pushes discard their results, hence `pushDrop`. -/
def openHomotopy (a b : CElem) (d : Director) : Outcome (Shell × Director) :=
  match CElem.getGeometry a d with
  | Except.error er => Outcome.err er
  | Except.ok curve0 =>
  match CElem.getGeometry b d with
  | Except.error er => Outcome.err er
  | Except.ok curve1 =>
  let surface := Surface.homotopy curve0 curve1
  match CElem.backV? a, CElem.backV? b with
  | some va, some vb =>
    match Director.line d va vb with
    | Except.error er => Outcome.err er
    | Except.ok (edge0, d) =>
    match CElem.frontV? b, CElem.frontV? a with
    | some vbf, some vaf =>
      match Director.line d vbf vaf with
      | Except.error er => Outcome.err er
      | Except.ok (edge1, d) =>
      let wire := CElem.cloneWire a
      let wire := Wire.pushDrop wire edge0
      let wire := (CElem.edges b).foldl (fun w e => Wire.pushDrop w (Edge.inverse e)) wire
      let wire := Wire.pushDrop wire edge1
      match Face.tryNew wire surface with
      | Except.error er => Outcome.err er
      | Except.ok face => Outcome.ok ([face], d)
    | _, _ => Outcome.panicked
  | _, _ => Outcome.panicked

/-- `closed_homotopy` (`curve_element.rs` lines 50–79), translated
statement by statement; the two `split_wire().unwrap()` calls panic on
`None`, the wire-assembly statements discard their results. -/
def closedHomotopy (a b : CElem) (d : Director) : Outcome (Shell × Director) :=
  match CElem.splitWire a with
  | none => Outcome.panicked
  | some (w0, w1) =>
  match CElem.splitWire b with
  | none => Outcome.panicked
  | some (w2, w3) =>
  match Director.bsplineByWire d w0 with
  | Except.error er => Outcome.err er
  | Except.ok curve0 =>
  match Director.bsplineByWire d w2 with
  | Except.error er => Outcome.err er
  | Except.ok curve2 =>
  let surface0 := Surface.homotopy curve0 curve2
  match Director.bsplineByWire d w1 with
  | Except.error er => Outcome.err er
  | Except.ok curve1 =>
  match Director.bsplineByWire d w3 with
  | Except.error er => Outcome.err er
  | Except.ok curve3 =>
  let surface1 := Surface.homotopy curve1 curve3
  match Wire.frontV? w0, Wire.frontV? w2 with
  | some f0, some f2 =>
    match Director.line d f0 f2 with
    | Except.error er => Outcome.err er
    | Except.ok (edge0, d) =>
    match Wire.backV? w0, Wire.backV? w2 with
    | some b0, some b2 =>
      match Director.line d b0 b2 with
      | Except.error er => Outcome.err er
      | Except.ok (edge1, d) =>
      let wire0 := Wire.pushDrop w0 edge1
      let wire0 := Wire.appendDrop wire0 (Wire.inverse w2)
      let wire0 := Wire.pushDrop wire0 (Edge.inverse edge0)
      let wire1 := Wire.pushDrop w1 edge0
      let wire1 := Wire.appendDrop wire1 (Wire.inverse w3)
      let wire1 := Wire.pushDrop wire1 (Edge.inverse edge1)
      match Face.tryNew wire0 surface0 with
      | Except.error er => Outcome.err er
      | Except.ok face0 =>
      match Face.tryNew wire1 surface1 with
      | Except.error er => Outcome.err er
      | Except.ok face1 => Outcome.ok ([face0, face1], d)
    | _, _ => Outcome.panicked
  | _, _ => Outcome.panicked

/-- `CurveElement::homotopy` dispatch (`curve_element.rs` lines 14–26):
both closed → `closed_homotopy`; both open → `open_homotopy`; mixed →
`Err(DifferentHomotopyType)`. -/
def homotopy (a b : CElem) (d : Director) : Outcome (Shell × Director) :=
  let closed0 := CElem.isClosed a
  let closed1 := CElem.isClosed b
  if closed0 && closed1 then closedHomotopy a b d
  else if !closed0 && !closed1 then openHomotopy a b d
  else Outcome.err Err.DifferentHomotopyType

/-! ## Face tessellation (`truck-rendimpl/src/shaperend.rs`)

The numeric services the boundary pass consumes (`subs`,
`search_parameter`, `parameter_division`, the knot ranges) live in the
geometry crate, which is not under src/; they are therefore abstract
data here, and `f64` parameters are modelled by exact rationals (the
`as f32` casts are modelled as the identity). -/

/-- A 3D point, exact-rational model of `Point3`. -/
structure Pt3 where
  x : ℚ
  y : ℚ
  z : ℚ
deriving DecidableEq, Repr

/-- `distance2`: squared Euclidean distance. -/
def Pt3.dist2 (p q : Pt3) : ℚ :=
  (p.x - q.x) ^ 2 + (p.y - q.y) ^ 2 + (p.z - q.z) ^ 2

/-- The face of `face_buffer` viewed through the geometry services it
calls: surface evaluation, the first knot and range length of each knot
vector, and the damped-Newton inverse search. -/
structure TessSurface where
  subs : ℚ → ℚ → Pt3
  uFirst : ℚ
  uRange : ℚ
  vFirst : ℚ
  vRange : ℚ
  searchParameter : Pt3 → ℚ × ℚ → Option (ℚ × ℚ)

/-- The grid parameter pair of `presearch` at indices `(i, j)`:
`u = uknot_vec()[0] + (i/50) * range_length()` and likewise for `v`. -/
def gridPt (s : TessSurface) (i j : ℕ) : ℚ × ℚ :=
  (s.uFirst + ((i : ℚ) / 50) * s.uRange, s.vFirst + ((j : ℚ) / 50) * s.vRange)

/-- The iteration sequence of the two nested `for i in 0..=N` /
`for j in 0..=N` loops of `presearch`, `N = 50`. -/
def presearchPairs : List (ℕ × ℕ) :=
  (List.range 51).flatMap (fun i => (List.range 51).map (fun j => (i, j)))

/-- One iteration of the `presearch` loop body: replace the running
result when the squared distance is strictly below the running minimum
(`f64::INFINITY` is modelled by `none`). -/
def presearchStep (s : TessSurface) (point : Pt3)
    (acc : (ℚ × ℚ) × Option ℚ) (ij : ℕ × ℕ) : (ℚ × ℚ) × Option ℚ :=
  let uv := gridPt s ij.1 ij.2
  let dist := Pt3.dist2 (s.subs uv.1 uv.2) point
  match acc.2 with
  | none => (uv, some dist)
  | some m => if dist < m then (uv, some dist) else acc

/-- `presearch` (`shaperend.rs` lines 14–32): scan the 51×51 grid,
return the parameter pair whose surface value is closest to `point`. -/
def presearch (s : TessSurface) (point : Pt3) : ℚ × ℚ :=
  (presearchPairs.foldl (presearchStep s point) ((0, 0), none)).1

/-- A boundary edge as `face_buffer` consumes it: the oriented curve
(its evaluation map) together with its `parameter_division(0.005)`
(the division algorithm itself lives in the absent geometry crate, so
its output is carried as data). -/
structure TessCurve where
  subs : ℚ → Pt3
  division : List ℚ

/-- The `for t in division` loop body: one inverse-search with the
propagated hint, pushing the found parameter pair. -/
def chainStep (s : TessSurface) (c : TessCurve)
    (st : Option ((ℚ × ℚ) × List (ℚ × ℚ))) (t : ℚ) : Option ((ℚ × ℚ) × List (ℚ × ℚ)) :=
  match st with
  | none => none
  | some (hint, acc) =>
      match s.searchParameter (c.subs t) hint with
      | none => none
      | some hint' => some (hint', acc ++ [hint'])

/-- The per-edge part of `face_buffer` (`shaperend.rs` lines 39–51):
seed the hint by `presearch` at the curve value of `division[0]`
(a panic on an empty division, modelled as failure), then run the
inverse search over every division point, threading the hint;
`None` as soon as one search fails. -/
def edgeBoundaryPts (s : TessSurface) (c : TessCurve) : Option (List (ℚ × ℚ)) :=
  match c.division with
  | [] => none
  | t0 :: _ =>
      let hint0 := presearch s (c.subs t0)
      (c.division.foldl (chainStep s c) (some (hint0, []))).map Prod.snd

/-- `windows(2)` over the per-edge parameter points: the emitted
`[u₀, v₀, u₁, v₁]` segments. -/
def windowPairs (pts : List (ℚ × ℚ)) : List ((ℚ × ℚ) × (ℚ × ℚ)) :=
  pts.zip pts.tail

/-- The boundary part of `face_buffer` (lines 38–55): concatenate the
per-edge segment lists over the flattened boundary iterators, failing
as soon as one edge fails. -/
def faceBoundary (s : TessSurface) : List TessCurve → Option (List ((ℚ × ℚ) × (ℚ × ℚ)))
  | [] => some []
  | c :: rest =>
      match edgeBoundaryPts s c with
      | none => none
      | some pts =>
          match faceBoundary s rest with
          | none => none
          | some segs => some (windowPairs pts ++ segs)

/-- The render payload of one face: the boundary segment buffer and the
segment count `boundary.len() as u32` (the structured-mesh vertex and
index buffers are GPU objects outside this model). -/
structure FaceBuffer where
  boundary : List ((ℚ × ℚ) × (ℚ × ℚ))
  boundaryLength : ℕ
deriving DecidableEq, Repr

/-- A face as the tessellator sees it: its oriented surface and its
flattened boundary edges. -/
structure RFace where
  surface : TessSurface
  edges : List TessCurve

/-- `face_buffer` (lines 34–69): `Some` exactly when every inverse
search converged. -/
def faceBuffer (f : RFace) : Option FaceBuffer :=
  match faceBoundary f.surface f.edges with
  | none => none
  | some segs => some { boundary := segs, boundaryLength := segs.length }

/-- `IntoInstance for Shell::into_instance` (lines 71–83): map
`face_buffer` over the faces, `unwrap`ping each result — a single
failing face panics the whole instance construction. -/
def intoInstanceShell : List RFace → Outcome (List FaceBuffer)
  | [] => Outcome.ok []
  | f :: rest =>
      match faceBuffer f with
      | none => Outcome.panicked
      | some b =>
          match intoInstanceShell rest with
          | Outcome.ok bs => Outcome.ok (b :: bs)
          | r => r

/-- `IntoInstance for Solid::into_instance` (lines 94–108): flat-map
the boundary shells' faces and build each buffer with the same
`unwrap`. -/
def intoInstanceSolid (shells : List (List RFace)) : Outcome (List FaceBuffer) :=
  intoInstanceShell (shells.foldr (fun sh acc => sh ++ acc) [])

/-- Specification recursion for the per-edge hint chain: search the
first division point with the incoming hint, thread each result as the
next hint, collect the found parameter pairs. -/
def hintChain (s : TessSurface) (c : TessCurve) : List ℚ → ℚ × ℚ → Option (List (ℚ × ℚ))
  | [], _ => some []
  | t :: rest, hint =>
      match s.searchParameter (c.subs t) hint with
      | none => none
      | some hint' => (hintChain s c rest hint').map (fun l => hint' :: l)

/-! ## NURBS evaluation (`truck_geometry`)

The two doc examples (unit-circle curve, unit-sphere surface) are
transcribed literally from `truck_geometry/src/lib.rs`.  The evaluator
`subs` itself lives in the absent `bspcurve`/`bspsurface` modules. -/

/-- Homogeneous 4D control point (`Vector4`), exact-rational model of
the `f64` components. -/
structure V4 where
  x : ℚ
  y : ℚ
  z : ℚ
  w : ℚ
deriving DecidableEq, Repr

instance : Inhabited V4 := ⟨⟨0, 0, 0, 0⟩⟩

/-- Componentwise sum. -/
def V4.add (a b : V4) : V4 := ⟨a.x + b.x, a.y + b.y, a.z + b.z, a.w + b.w⟩

/-- Scalar multiple. -/
def V4.smul (c : ℚ) (a : V4) : V4 := ⟨c * a.x, c * a.y, c * a.z, c * a.w⟩

/-- Modelled from the spec (§4.1, `KnotVec::floor`): the index of the
largest knot ≤ `t` of a non-decreasing knot vector (count of knots ≤
`t`, minus one). -/
def floorIdx (ks : List ℚ) (t : ℚ) : ℕ :=
  (ks.countP (fun k => decide (k ≤ t))) - 1

/-- Round `r` of the de Boor triangle at span `k`, degree `p`: the
entries `d_j^r` for `j = r…p` from the entries `d_j^{r−1}` for
`j = r−1…p` (entry `m` of the result is `j = m + r`):
`d_j^r = (1−α)·d_{j−1}^{r−1} + α·d_j^{r−1}` with
`α = (t − ks[j+k−p]) / (ks[j+1+k−r] − ks[j+k−p])`. -/
def deBoorRound (ks : List ℚ) (t : ℚ) (k p r : ℕ) (d : List V4) : List V4 :=
  (List.range (p + 1 - r)).map (fun m =>
    let i := m + r + k - p
    let lo := ks.getD i 0
    let hi := ks.getD (i + p + 1 - r) 0
    let α := (t - lo) / (hi - lo)
    V4.add (V4.smul (1 - α) (d.getD m default)) (V4.smul α (d.getD (m + 1) default)))

/-- Modelled from the spec (§4.2, `subs`: "de Boor recursion on the
active span"): degree `p` is inferred from
`len(control_points) + degree + 1 == len(knot_vec)`; the active span is
`floor(t)`; the triangle starts from the `p+1` active control points
`cps[k−p…k]` and runs rounds `r = 1…p`, leaving the single value
`d_p^p`. -/
def deBoor (ks : List ℚ) (cps : List V4) (t : ℚ) : V4 :=
  let p := ks.length - cps.length - 1
  let k := floorIdx ks t
  let d0 := (List.range (p + 1)).map (fun j => cps.getD (j + k - p) default)
  ((List.range p).foldl (fun d r => deBoorRound ks t k p (r + 1) d) d0).headD default

/-- `BSplineCurve::subs`. -/
def curveSubs (ks : List ℚ) (cps : List V4) (t : ℚ) : V4 := deBoor ks cps t

/-- Column `j` of a control grid. -/
def gridCol (grid : List (List V4)) (j : ℕ) : List V4 :=
  grid.map (fun row => row.getD j default)

/-- `BSplineSurface::subs`: de Boor in the `u` direction down each
column of the control grid (rows correspond to the first knot vector),
then de Boor in the `v` direction across the resulting points. -/
def surfSubs (uks vks : List ℚ) (grid : List (List V4)) (u v : ℚ) : V4 :=
  let cols := (grid.headD []).length
  let row := (List.range cols).map (fun j => deBoor uks (gridCol grid j) u)
  deBoor vks row v

/-- The unit-circle doc example's knot vector
(`truck_geometry/src/lib.rs` lines 54–56). -/
def circleKnots : List ℚ :=
  [0, 0, 0, 1/4, 1/4, 1/2, 1/2, 3/4, 3/4, 1, 1, 1]

/-- The unit-circle doc example's nine rational control points
(lines 59–69). -/
def circleCps : List V4 :=
  [⟨0, -2, 0, 2⟩, ⟨1, -1, 0, 1⟩, ⟨1, 0, 0, 1⟩, ⟨1, 1, 0, 1⟩,
   ⟨0, 2, 0, 2⟩, ⟨-1, 1, 0, 1⟩, ⟨-1, 0, 0, 1⟩, ⟨-1, -1, 0, 1⟩, ⟨0, -2, 0, 2⟩]

/-- Inferred degree of a curve: `len(knot_vec) − len(control_points) − 1`. -/
def curveDegree (ks : List ℚ) (cps : List V4) : ℕ := ks.length - cps.length - 1

/-- `KnotVec::bezier_knot(degree)`: `[0…0, 1…1]` with multiplicity
`degree + 1` each (spec §4.1). -/
def bezierKnot (degree : ℕ) : List ℚ :=
  List.replicate (degree + 1) 0 ++ List.replicate (degree + 1) 1

/-- The unit-sphere doc example's `u` knot vector: `bezier_knot(3)`
(`truck_geometry/src/lib.rs` line 125). -/
def sphereUKnots : List ℚ := bezierKnot 3

/-- The unit-sphere doc example's `v` knot vector (lines 126–128). -/
def sphereVKnots : List ℚ :=
  [0, 0, 0, 0, 1/2, 1/2, 1/2, 1, 1, 1, 1]

/-- The unit-sphere doc example's 4×7 control grid (lines 132–160). -/
def sphereGrid : List (List V4) :=
  [[⟨0, 0, 1, 1⟩, ⟨0, 0, 1/3, 1/3⟩, ⟨0, 0, 1/3, 1/3⟩, ⟨0, 0, 1, 1⟩,
    ⟨0, 0, 1/3, 1/3⟩, ⟨0, 0, 1/3, 1/3⟩, ⟨0, 0, 1, 1⟩],
   [⟨2/3, 0, 1/3, 1/3⟩, ⟨2/9, 4/9, 1/9, 1/9⟩, ⟨-2/9, 4/9, 1/9, 1/9⟩, ⟨-2/3, 0, 1/3, 1/3⟩,
    ⟨-2/9, -4/9, 1/9, 1/9⟩, ⟨2/9, -4/9, 1/9, 1/9⟩, ⟨2/3, 0, 1/3, 1/3⟩],
   [⟨2/3, 0, -1/3, 1/3⟩, ⟨2/9, 4/9, -1/9, 1/9⟩, ⟨-2/9, 4/9, -1/9, 1/9⟩, ⟨-2/3, 0, -1/3, 1/3⟩,
    ⟨-2/9, -4/9, -1/9, 1/9⟩, ⟨2/9, -4/9, -1/9, 1/9⟩, ⟨2/3, 0, -1/3, 1/3⟩],
   [⟨0, 0, -1, 1⟩, ⟨0, 0, -1/3, 1/3⟩, ⟨0, 0, -1/3, 1/3⟩, ⟨0, 0, -1, 1⟩,
    ⟨0, 0, -1/3, 1/3⟩, ⟨0, 0, -1/3, 1/3⟩, ⟨0, 0, -1, 1⟩]]

/-- Inferred degree pair of the sphere doc example: the `u` degree from
the row count, the `v` degree from the column count. -/
def sphereDegrees : ℕ × ℕ :=
  (sphereUKnots.length - sphereGrid.length - 1,
   sphereVKnots.length - (sphereGrid.headD []).length - 1)

/-- The circle sample property at sample `i`: at `t = i/100`,
`(x/w)² + (y/w)²` is within `10⁻¹⁴` of 1. -/
def circleSample (i : ℕ) : Prop :=
  let q := curveSubs circleKnots circleCps ((i : ℚ) / 100)
  |(q.x / q.w) ^ 2 + (q.y / q.w) ^ 2 - 1| ≤ 1 / 10 ^ 14

instance (i : ℕ) : Decidable (circleSample i) := by
  unfold circleSample; exact inferInstance

/-- The sphere sample property at samples `(i, j)`: at
`(u, v) = (i/100, j/100)`, `(x/w)² + (y/w)² + (z/w)²` is within
`10⁻¹²` of 1. -/
def sphereSample (i j : ℕ) : Prop :=
  let q := surfSubs sphereUKnots sphereVKnots sphereGrid ((i : ℚ) / 100) ((j : ℚ) / 100)
  |(q.x / q.w) ^ 2 + (q.y / q.w) ^ 2 + (q.z / q.w) ^ 2 - 1| ≤ 1 / 10 ^ 12

instance (i j : ℕ) : Decidable (sphereSample i j) := by
  unfold sphereSample; exact inferInstance

/-! ## Span-wise closed forms of the two doc examples

On each knot span the rational curve/surface is a polynomial; the
evaluation lemmas below unfold the de Boor recursion symbolically and
land on explicit polynomials, from which the circle/sphere identities
follow exactly (hence within any positive tolerance). -/

set_option maxHeartbeats 2000000 in
/-- Unit-circle doc example, first quarter span `[0, 1/4)`. -/
lemma circle_eval_q1 (t : ℚ) (h1 : 0 ≤ t) (h2 : t < 1/4) :
    deBoor circleKnots circleCps t
      = ⟨8*t - 16*t^2, 8*t - 2, 0, 16*t^2 - 8*t + 2⟩ := by
  have hk : floorIdx circleKnots t = 2 := by
    simp [floorIdx, circleKnots, List.countP_cons, decide_eq_true_eq, h1]
    and_intros <;> linarith
  have hlen : circleKnots.length - circleCps.length - 1 = 2 := rfl
  have hr3 : List.range 3 = [0, 1, 2] := rfl
  have hr2 : List.range 2 = [0, 1] := rfl
  have hr1 : List.range 1 = [0] := rfl
  simp only [deBoor, hk, hlen, hr3, hr2, List.foldl_cons, List.foldl_nil,
    List.map_cons, List.map_nil]
  norm_num [deBoorRound, circleKnots, circleCps, V4.add, V4.smul, hr2, hr1, V4.mk.injEq]
  and_intros <;> ring

set_option maxHeartbeats 2000000 in
/-- Unit-circle doc example, span `[1/4, 1/2)` (the same polynomial
piece as the first span). -/
lemma circle_eval_q2 (t : ℚ) (h1 : 1/4 ≤ t) (h2 : t < 1/2) :
    deBoor circleKnots circleCps t
      = ⟨8*t - 16*t^2, 8*t - 2, 0, 16*t^2 - 8*t + 2⟩ := by
  have hc0 : (0 : ℚ) ≤ t := by linarith
  have hc14 : (4 : ℚ)⁻¹ ≤ t := by linarith
  have hk : floorIdx circleKnots t = 4 := by
    simp [floorIdx, circleKnots, List.countP_cons, decide_eq_true_eq, hc0, hc14]
    and_intros <;> linarith
  have hlen : circleKnots.length - circleCps.length - 1 = 2 := rfl
  have hr3 : List.range 3 = [0, 1, 2] := rfl
  have hr2 : List.range 2 = [0, 1] := rfl
  have hr1 : List.range 1 = [0] := rfl
  simp only [deBoor, hk, hlen, hr3, hr2, List.foldl_cons, List.foldl_nil,
    List.map_cons, List.map_nil]
  norm_num [deBoorRound, circleKnots, circleCps, V4.add, V4.smul, hr2, hr1, V4.mk.injEq]
  and_intros <;> ring

set_option maxHeartbeats 2000000 in
/-- Unit-circle doc example, span `[1/2, 3/4)`. -/
lemma circle_eval_q3 (t : ℚ) (h1 : 1/2 ≤ t) (h2 : t < 3/4) :
    deBoor circleKnots circleCps t
      = ⟨16*t^2 - 24*t + 8, 6 - 8*t, 0, 16*t^2 - 24*t + 10⟩ := by
  have hc0 : (0 : ℚ) ≤ t := by linarith
  have hc14 : (4 : ℚ)⁻¹ ≤ t := by linarith
  have hc12 : (2 : ℚ)⁻¹ ≤ t := by linarith
  have hk : floorIdx circleKnots t = 6 := by
    simp [floorIdx, circleKnots, List.countP_cons, decide_eq_true_eq, hc0, hc14, hc12]
    and_intros <;> linarith
  have hlen : circleKnots.length - circleCps.length - 1 = 2 := rfl
  have hr3 : List.range 3 = [0, 1, 2] := rfl
  have hr2 : List.range 2 = [0, 1] := rfl
  have hr1 : List.range 1 = [0] := rfl
  simp only [deBoor, hk, hlen, hr3, hr2, List.foldl_cons, List.foldl_nil,
    List.map_cons, List.map_nil]
  norm_num [deBoorRound, circleKnots, circleCps, V4.add, V4.smul, hr2, hr1, V4.mk.injEq]
  and_intros <;> ring

set_option maxHeartbeats 2000000 in
/-- Unit-circle doc example, span `[3/4, 1)` (the same polynomial piece
as the third span). -/
lemma circle_eval_q4 (t : ℚ) (h1 : 3/4 ≤ t) (h2 : t < 1) :
    deBoor circleKnots circleCps t
      = ⟨16*t^2 - 24*t + 8, 6 - 8*t, 0, 16*t^2 - 24*t + 10⟩ := by
  have hc0 : (0 : ℚ) ≤ t := by linarith
  have hc14 : (4 : ℚ)⁻¹ ≤ t := by linarith
  have hc12 : (2 : ℚ)⁻¹ ≤ t := by linarith
  have hc34 : (3 : ℚ)/4 ≤ t := by linarith
  have hk : floorIdx circleKnots t = 8 := by
    simp [floorIdx, circleKnots, List.countP_cons, decide_eq_true_eq, hc0, hc14, hc12, hc34]
    linarith
  have hlen : circleKnots.length - circleCps.length - 1 = 2 := rfl
  have hr3 : List.range 3 = [0, 1, 2] := rfl
  have hr2 : List.range 2 = [0, 1] := rfl
  have hr1 : List.range 1 = [0] := rfl
  simp only [deBoor, hk, hlen, hr3, hr2, List.foldl_cons, List.foldl_nil,
    List.map_cons, List.map_nil]
  norm_num [deBoorRound, circleKnots, circleCps, V4.add, V4.smul, hr2, hr1, V4.mk.injEq]
  and_intros <;> ring

/-- On the whole parameter range `[0, 1)`, the circle doc example
satisfies `x² + y² = w²` with a nonvanishing weight. -/
lemma circle_onCircle (t : ℚ) (h1 : 0 ≤ t) (h2 : t < 1) :
    (deBoor circleKnots circleCps t).x ^ 2 + (deBoor circleKnots circleCps t).y ^ 2
        = (deBoor circleKnots circleCps t).w ^ 2
      ∧ (deBoor circleKnots circleCps t).w ≠ 0 := by
  rcases lt_or_le t (1/4) with hq | hq1
  · rw [circle_eval_q1 t h1 hq]
    refine ⟨by ring, ?_⟩
    show (16*t^2 - 8*t + 2) ≠ 0
    nlinarith [sq_nonneg (4*t - 1)]
  · rcases lt_or_le t (1/2) with hq | hq2
    · rw [circle_eval_q2 t hq1 hq]
      refine ⟨by ring, ?_⟩
      show (16*t^2 - 8*t + 2) ≠ 0
      nlinarith [sq_nonneg (4*t - 1)]
    · rcases lt_or_le t (3/4) with hq | hq3
      · rw [circle_eval_q3 t hq2 hq]
        refine ⟨by ring, ?_⟩
        show (16*t^2 - 24*t + 10) ≠ 0
        nlinarith [sq_nonneg (4*t - 3)]
      · rw [circle_eval_q4 t hq3 h2]
        refine ⟨by ring, ?_⟩
        show (16*t^2 - 24*t + 10) ≠ 0
        nlinarith [sq_nonneg (4*t - 3)]

set_option maxHeartbeats 8000000 in
/-- Unit-sphere doc example, `v` span `[0, 1/2)` (the `u` knot vector
is a Bézier one, so `[0, 1)` is a single `u` span). -/
lemma sphere_eval_a (u v : ℚ) (hu1 : 0 ≤ u) (hu2 : u < 1) (hv1 : 0 ≤ v) (hv2 : v < 1/2) :
    surfSubs sphereUKnots sphereVKnots sphereGrid u v
      = ⟨2*u - 8*u*v - 2*u^2 + 8*u^2*v,
         8*u*v - 16*u*v^2 - 8*u^2*v + 16*u^2*v^2,
         1 - 4*v + 8*v^2 - 2*u + 8*u*v - 16*u*v^2,
         1 - 4*v + 8*v^2 - 2*u + 8*u*v - 16*u*v^2 + 2*u^2 - 8*u^2*v + 16*u^2*v^2⟩ := by
  have hUk : sphereUKnots = [0, 0, 0, 0, 1, 1, 1, 1] := rfl
  have hku : floorIdx [(0:ℚ), 0, 0, 0, 1, 1, 1, 1] u = 3 := by
    simp [floorIdx, List.countP_cons, decide_eq_true_eq, hu1]
    linarith
  have hkv : floorIdx sphereVKnots v = 3 := by
    simp [floorIdx, sphereVKnots, List.countP_cons, decide_eq_true_eq, hv1]
    and_intros <;> linarith
  have hcol0 : gridCol sphereGrid 0 = [⟨0,0,1,1⟩, ⟨2/3,0,1/3,1/3⟩, ⟨2/3,0,-1/3,1/3⟩, ⟨0,0,-1,1⟩] := rfl
  have hcol1 : gridCol sphereGrid 1 = [⟨0,0,1/3,1/3⟩, ⟨2/9,4/9,1/9,1/9⟩, ⟨2/9,4/9,-1/9,1/9⟩, ⟨0,0,-1/3,1/3⟩] := rfl
  have hcol2 : gridCol sphereGrid 2 = [⟨0,0,1/3,1/3⟩, ⟨-2/9,4/9,1/9,1/9⟩, ⟨-2/9,4/9,-1/9,1/9⟩, ⟨0,0,-1/3,1/3⟩] := rfl
  have hcol3 : gridCol sphereGrid 3 = [⟨0,0,1,1⟩, ⟨-2/3,0,1/3,1/3⟩, ⟨-2/3,0,-1/3,1/3⟩, ⟨0,0,-1,1⟩] := rfl
  have hcol4 : gridCol sphereGrid 4 = [⟨0,0,1/3,1/3⟩, ⟨-2/9,-4/9,1/9,1/9⟩, ⟨-2/9,-4/9,-1/9,1/9⟩, ⟨0,0,-1/3,1/3⟩] := rfl
  have hcol5 : gridCol sphereGrid 5 = [⟨0,0,1/3,1/3⟩, ⟨2/9,-4/9,1/9,1/9⟩, ⟨2/9,-4/9,-1/9,1/9⟩, ⟨0,0,-1/3,1/3⟩] := rfl
  have hcol6 : gridCol sphereGrid 6 = [⟨0,0,1,1⟩, ⟨2/3,0,1/3,1/3⟩, ⟨2/3,0,-1/3,1/3⟩, ⟨0,0,-1,1⟩] := rfl
  have hgl : (sphereGrid.headD []).length = 7 := rfl
  have hr7 : List.range 7 = [0, 1, 2, 3, 4, 5, 6] := rfl
  have hr4 : List.range 4 = [0, 1, 2, 3] := rfl
  have hr3 : List.range 3 = [0, 1, 2] := rfl
  have hr2 : List.range 2 = [0, 1] := rfl
  have hr1 : List.range 1 = [0] := rfl
  simp only [surfSubs, deBoor, hUk, hku, hkv, hcol0, hcol1, hcol2, hcol3, hcol4, hcol5, hcol6,
    hgl, hr7, hr4, hr3, List.length_map, List.length_range,
    List.foldl_cons, List.foldl_nil, List.map_cons, List.map_nil]
  norm_num [deBoorRound, sphereVKnots, V4.add, V4.smul, hr4, hr3, hr2, hr1, V4.mk.injEq]
  and_intros <;> ring

set_option maxHeartbeats 8000000 in
/-- Unit-sphere doc example, `v` span `[1/2, 1)`. -/
lemma sphere_eval_b (u v : ℚ) (hu1 : 0 ≤ u) (hu2 : u < 1) (hv1 : 1/2 ≤ v) (hv2 : v < 1) :
    surfSubs sphereUKnots sphereVKnots sphereGrid u v
      = ⟨-6*u + 8*u*v + 6*u^2 - 8*u^2*v,
         8*u - 24*u*v + 16*u*v^2 - 8*u^2 + 24*u^2*v - 16*u^2*v^2,
         5 - 12*v + 8*v^2 - 10*u + 24*u*v - 16*u*v^2,
         5 - 12*v + 8*v^2 - 10*u + 24*u*v - 16*u*v^2 + 10*u^2 - 24*u^2*v + 16*u^2*v^2⟩ := by
  have hc0 : (0 : ℚ) ≤ v := by linarith
  have hc12 : (2 : ℚ)⁻¹ ≤ v := by linarith
  have hUk : sphereUKnots = [0, 0, 0, 0, 1, 1, 1, 1] := rfl
  have hku : floorIdx [(0:ℚ), 0, 0, 0, 1, 1, 1, 1] u = 3 := by
    simp [floorIdx, List.countP_cons, decide_eq_true_eq, hu1]
    linarith
  have hkv : floorIdx sphereVKnots v = 6 := by
    simp [floorIdx, sphereVKnots, List.countP_cons, decide_eq_true_eq, hc0, hc12]
    linarith
  have hcol0 : gridCol sphereGrid 0 = [⟨0,0,1,1⟩, ⟨2/3,0,1/3,1/3⟩, ⟨2/3,0,-1/3,1/3⟩, ⟨0,0,-1,1⟩] := rfl
  have hcol1 : gridCol sphereGrid 1 = [⟨0,0,1/3,1/3⟩, ⟨2/9,4/9,1/9,1/9⟩, ⟨2/9,4/9,-1/9,1/9⟩, ⟨0,0,-1/3,1/3⟩] := rfl
  have hcol2 : gridCol sphereGrid 2 = [⟨0,0,1/3,1/3⟩, ⟨-2/9,4/9,1/9,1/9⟩, ⟨-2/9,4/9,-1/9,1/9⟩, ⟨0,0,-1/3,1/3⟩] := rfl
  have hcol3 : gridCol sphereGrid 3 = [⟨0,0,1,1⟩, ⟨-2/3,0,1/3,1/3⟩, ⟨-2/3,0,-1/3,1/3⟩, ⟨0,0,-1,1⟩] := rfl
  have hcol4 : gridCol sphereGrid 4 = [⟨0,0,1/3,1/3⟩, ⟨-2/9,-4/9,1/9,1/9⟩, ⟨-2/9,-4/9,-1/9,1/9⟩, ⟨0,0,-1/3,1/3⟩] := rfl
  have hcol5 : gridCol sphereGrid 5 = [⟨0,0,1/3,1/3⟩, ⟨2/9,-4/9,1/9,1/9⟩, ⟨2/9,-4/9,-1/9,1/9⟩, ⟨0,0,-1/3,1/3⟩] := rfl
  have hcol6 : gridCol sphereGrid 6 = [⟨0,0,1,1⟩, ⟨2/3,0,1/3,1/3⟩, ⟨2/3,0,-1/3,1/3⟩, ⟨0,0,-1,1⟩] := rfl
  have hgl : (sphereGrid.headD []).length = 7 := rfl
  have hr7 : List.range 7 = [0, 1, 2, 3, 4, 5, 6] := rfl
  have hr4 : List.range 4 = [0, 1, 2, 3] := rfl
  have hr3 : List.range 3 = [0, 1, 2] := rfl
  have hr2 : List.range 2 = [0, 1] := rfl
  have hr1 : List.range 1 = [0] := rfl
  simp only [surfSubs, deBoor, hUk, hku, hkv, hcol0, hcol1, hcol2, hcol3, hcol4, hcol5, hcol6,
    hgl, hr7, hr4, hr3, List.length_map, List.length_range,
    List.foldl_cons, List.foldl_nil, List.map_cons, List.map_nil]
  norm_num [deBoorRound, sphereVKnots, V4.add, V4.smul, hr4, hr3, hr2, hr1, V4.mk.injEq]
  and_intros <;> ring

/-- On the whole parameter square `[0, 1) × [0, 1)`, the sphere doc
example satisfies `x² + y² + z² = w²` with a nonvanishing weight. -/
lemma sphere_onSphere (u v : ℚ) (hu1 : 0 ≤ u) (hu2 : u < 1) (hv1 : 0 ≤ v) (hv2 : v < 1) :
    ((surfSubs sphereUKnots sphereVKnots sphereGrid u v).x ^ 2
        + (surfSubs sphereUKnots sphereVKnots sphereGrid u v).y ^ 2
        + (surfSubs sphereUKnots sphereVKnots sphereGrid u v).z ^ 2
        = (surfSubs sphereUKnots sphereVKnots sphereGrid u v).w ^ 2)
      ∧ (surfSubs sphereUKnots sphereVKnots sphereGrid u v).w ≠ 0 := by
  rcases lt_or_le v (1/2) with hv | hv
  · rw [sphere_eval_a u v hu1 hu2 hv1 hv]
    refine ⟨by ring, ?_⟩
    show (1 - 4*v + 8*v^2 - 2*u + 8*u*v - 16*u*v^2 + 2*u^2 - 8*u^2*v + 16*u^2*v^2) ≠ 0
    nlinarith [sq_nonneg (2*u - 1), sq_nonneg (4*v - 1), sq_nonneg ((2*u - 1)*(4*v - 1))]
  · rw [sphere_eval_b u v hu1 hu2 hv hv2]
    refine ⟨by ring, ?_⟩
    show (5 - 12*v + 8*v^2 - 10*u + 24*u*v - 16*u*v^2 + 10*u^2 - 24*u^2*v + 16*u^2*v^2) ≠ 0
    nlinarith [sq_nonneg (2*u - 1), sq_nonneg (4*v - 3), sq_nonneg ((2*u - 1)*(4*v - 3))]

/-- C8: the unit-circle NURBS curve of the doc example — knot vector
`[0,0,0,¼,¼,½,½,¾,¾,1,1,1]`, the nine rational control points of
`truck_geometry/src/lib.rs` — satisfies, at every sample parameter
`t = i/100` for `i < 100`, `(x/w)² + (y/w)² = 1` within `10⁻¹⁴`
(the identity holds exactly in rational arithmetic). -/
theorem circle_samples_identity : ∀ i : ℕ, i < 100 → circleSample i := by
  intro i hi
  have hi' : (i : ℚ) < 100 := by exact_mod_cast hi
  have h0 : (0 : ℚ) ≤ (i : ℚ) / 100 := by positivity
  have h1 : ((i : ℚ) / 100) < 1 := by linarith
  obtain ⟨hid, hw⟩ := circle_onCircle ((i : ℚ) / 100) h0 h1
  have hone :
      ((deBoor circleKnots circleCps ((i : ℚ) / 100)).x
          / (deBoor circleKnots circleCps ((i : ℚ) / 100)).w) ^ 2
        + ((deBoor circleKnots circleCps ((i : ℚ) / 100)).y
          / (deBoor circleKnots circleCps ((i : ℚ) / 100)).w) ^ 2 = 1 := by
    field_simp
    linear_combination hid
  simp only [circleSample, curveSubs, hone]
  norm_num

/-- C8 witness: the sample property at `i = 37`, through
`circle_samples_identity`. -/
theorem circle_samples_identity_witness : 37 < 100 ∧ circleSample 37 :=
  ⟨by norm_num, circle_samples_identity 37 (by norm_num)⟩

/-- C7 (counterexample): the claim as stated — the sphere doc example
has degrees `(3, 2)` and satisfies the sampled sphere identity — is
false: the inferred degree pair (`len(knots) − len(control_points) − 1`
in each direction) is `(3, 3)`, not `(3, 2)`. -/
theorem sphere_degrees_claim_false :
    ¬(sphereDegrees = (3, 2)
      ∧ ∀ i j : ℕ, i < 100 → j < 100 → sphereSample i j) := by
  intro h
  have h32 := h.1
  have h33 : sphereDegrees = (3, 3) := rfl
  rw [h33] at h32
  exact absurd (Prod.mk.injEq .. ▸ h32).2 (by norm_num)

/-- C7 (amended): the sphere doc example has degrees `(3, 3)`, and at
every sample `(u, v) = (i/100, j/100)` with `i, j < 100` it satisfies
`(x/w)² + (y/w)² + (z/w)² = 1` within `10⁻¹²` (exactly, in rational
arithmetic). -/
theorem sphere_degrees_and_samples_identity :
    sphereDegrees = (3, 3)
      ∧ ∀ i j : ℕ, i < 100 → j < 100 → sphereSample i j := by
  refine ⟨rfl, ?_⟩
  intro i j hi hj
  have hi' : (i : ℚ) < 100 := by exact_mod_cast hi
  have hj' : (j : ℚ) < 100 := by exact_mod_cast hj
  have hu0 : (0 : ℚ) ≤ (i : ℚ) / 100 := by positivity
  have hu1 : ((i : ℚ) / 100) < 1 := by linarith
  have hv0 : (0 : ℚ) ≤ (j : ℚ) / 100 := by positivity
  have hv1 : ((j : ℚ) / 100) < 1 := by linarith
  obtain ⟨hid, hw⟩ := sphere_onSphere ((i : ℚ) / 100) ((j : ℚ) / 100) hu0 hu1 hv0 hv1
  have hone :
      ((surfSubs sphereUKnots sphereVKnots sphereGrid ((i : ℚ) / 100) ((j : ℚ) / 100)).x
          / (surfSubs sphereUKnots sphereVKnots sphereGrid ((i : ℚ) / 100) ((j : ℚ) / 100)).w) ^ 2
        + ((surfSubs sphereUKnots sphereVKnots sphereGrid ((i : ℚ) / 100) ((j : ℚ) / 100)).y
          / (surfSubs sphereUKnots sphereVKnots sphereGrid ((i : ℚ) / 100) ((j : ℚ) / 100)).w) ^ 2
        + ((surfSubs sphereUKnots sphereVKnots sphereGrid ((i : ℚ) / 100) ((j : ℚ) / 100)).z
          / (surfSubs sphereUKnots sphereVKnots sphereGrid ((i : ℚ) / 100) ((j : ℚ) / 100)).w) ^ 2
        = 1 := by
    field_simp
    linear_combination hid
  simp only [sphereSample, hone]
  norm_num

/-- C7 witness: the sample property at `(i, j) = (3, 97)`, through
`sphere_degrees_and_samples_identity`. -/
theorem sphere_degrees_and_samples_identity_witness : 3 < 100 ∧ sphereSample 3 97 :=
  ⟨by norm_num, sphere_degrees_and_samples_identity.2 3 97 (by norm_num) (by norm_num)⟩

/-! ## Homotopy dispatch (claims C1, C2, C9, C10) -/

/-- The oriented-curve accessor never fails with
`DifferentHomotopyType` (its only error is `NoGeometry`). -/
lemma getOrientedCurve_not_dht {d : Director} {e : Edge} :
    Director.getOrientedCurve d e ≠ Except.error Err.DifferentHomotopyType := by
  unfold Director.getOrientedCurve
  split <;> simp

/-- The `bspline_by_wire` fold never fails with `DifferentHomotopyType`. -/
lemma bsplineByWireGo_not_dht {d : Director} :
    ∀ (es : List Edge) (acc : Option Curve),
      Director.bsplineByWireGo d es acc ≠ Except.error Err.DifferentHomotopyType := by
  intro es
  induction es with
  | nil => intro acc; cases acc <;> simp [Director.bsplineByWireGo]
  | cons e rest ih =>
      intro acc
      unfold Director.bsplineByWireGo
      split
      · intro hc
        injection hc with h
        exact getOrientedCurve_not_dht (by rw [‹Director.getOrientedCurve d e = _›, h])
      · exact ih _

/-- `bspline_by_wire` never fails with `DifferentHomotopyType`. -/
lemma bsplineByWire_not_dht {d : Director} {w : Wire} :
    Director.bsplineByWire d w ≠ Except.error Err.DifferentHomotopyType :=
  bsplineByWireGo_not_dht w none

/-- `get_geometry` never fails with `DifferentHomotopyType`. -/
lemma getGeometry_not_dht {c : CElem} {d : Director} :
    CElem.getGeometry c d ≠ Except.error Err.DifferentHomotopyType := by
  cases c with
  | edge e => exact getOrientedCurve_not_dht
  | wire w => exact bsplineByWire_not_dht

/-- `Builder::line` never fails with `DifferentHomotopyType`. -/
lemma line_not_dht {d : Director} {v₀ v₁ : Vertex} :
    Director.line d v₀ v₁ ≠ Except.error Err.DifferentHomotopyType := by
  unfold Director.line
  split <;> simp

/-- `Face::try_new` never fails with `DifferentHomotopyType`. -/
lemma tryNew_not_dht {w : Wire} {s : Surface} :
    Face.tryNew w s ≠ Except.error Err.DifferentHomotopyType := by
  unfold Face.tryNew
  split
  · simp
  · split <;> simp

/-- `open_homotopy` never produces `DifferentHomotopyType`. -/
lemma openHomotopy_not_dht (a b : CElem) (d : Director) :
    openHomotopy a b d ≠ Outcome.err Err.DifferentHomotopyType := by
  unfold openHomotopy
  repeat' split
  all_goals intro hc
  all_goals try dsimp only at hc
  all_goals repeat' split at hc
  all_goals first
    | (injection hc with h; subst h
       solve_by_elim [getGeometry_not_dht, line_not_dht, tryNew_not_dht])
    | injection hc

/-- `closed_homotopy` never produces `DifferentHomotopyType`. -/
lemma closedHomotopy_not_dht (a b : CElem) (d : Director) :
    closedHomotopy a b d ≠ Outcome.err Err.DifferentHomotopyType := by
  unfold closedHomotopy
  repeat' split
  all_goals intro hc
  all_goals try dsimp only at hc
  all_goals repeat' split at hc
  all_goals first
    | (injection hc with h; subst h
       solve_by_elim [bsplineByWire_not_dht, line_not_dht, tryNew_not_dht])
    | injection hc

/-- C2: for every pair of curve elements (edges or wires), the homotopy
dispatch fails with `DifferentHomotopyType` exactly when one operand is
closed and the other open; when both are closed or both open, this
error is never produced (the delegated constructions only produce other
errors, or panic). -/
theorem homotopy_mixed_dispatch :
    ∀ (a b : CElem) (d : Director),
      (CElem.isClosed a ≠ CElem.isClosed b →
        homotopy a b d = Outcome.err Err.DifferentHomotopyType)
      ∧ (CElem.isClosed a = CElem.isClosed b →
        homotopy a b d ≠ Outcome.err Err.DifferentHomotopyType) := by
  intro a b d
  constructor
  · intro h
    unfold homotopy
    cases hca : CElem.isClosed a <;> cases hcb : CElem.isClosed b <;> simp_all
  · intro h
    unfold homotopy
    cases hca : CElem.isClosed a <;> cases hcb : CElem.isClosed b <;>
      simp_all [openHomotopy_not_dht, closedHomotopy_not_dht]

/-- C2 witness: a closed two-edge wire against an open edge produces
`DifferentHomotopyType`; two open edges never do — both through
`homotopy_mixed_dispatch` at concrete inputs. -/
theorem homotopy_mixed_dispatch_witness :
    homotopy
        (CElem.wire [⟨13, ⟨0⟩, ⟨1⟩, false⟩, ⟨14, ⟨1⟩, ⟨0⟩, false⟩])
        (CElem.edge ⟨10, ⟨0⟩, ⟨1⟩, false⟩)
        ⟨20, [(0, 0), (1, 1)], [(10, Curve.stored 0), (13, Curve.stored 3), (14, Curve.stored 4)]⟩
      = Outcome.err Err.DifferentHomotopyType
    ∧ homotopy
        (CElem.edge ⟨10, ⟨0⟩, ⟨1⟩, false⟩)
        (CElem.edge ⟨11, ⟨2⟩, ⟨3⟩, false⟩)
        ⟨20, [(0, 0), (1, 1), (2, 2), (3, 3)], [(10, Curve.stored 0), (11, Curve.stored 1)]⟩
      ≠ Outcome.err Err.DifferentHomotopyType :=
  ⟨(homotopy_mixed_dispatch _ _ _).1 (by decide),
   (homotopy_mixed_dispatch _ _ _).2 (by decide)⟩

/-- C9: an `Edge` operand is never considered closed
(`is_closed` is `false` unconditionally), so homotopy of two edges
always takes the open path and never returns
`DifferentHomotopyType` — even for a loop edge whose front and back
vertices coincide (the statement quantifies over all edges, hence in
particular over loop edges). -/
theorem edge_homotopy_never_dht :
    ∀ (e₀ e₁ : Edge) (d : Director),
      CElem.isClosed (CElem.edge e₀) = false
      ∧ homotopy (CElem.edge e₀) (CElem.edge e₁) d
          = openHomotopy (CElem.edge e₀) (CElem.edge e₁) d
      ∧ homotopy (CElem.edge e₀) (CElem.edge e₁) d
          ≠ Outcome.err Err.DifferentHomotopyType := by
  intro e₀ e₁ d
  exact ⟨rfl, rfl, openHomotopy_not_dht (CElem.edge e₀) (CElem.edge e₁) d⟩

/-- C9 witness: even a loop edge (front and back both vertex 0) paired
with another edge takes the open path, through
`edge_homotopy_never_dht` at concrete inputs. -/
theorem edge_homotopy_never_dht_witness :
    CElem.isClosed (CElem.edge ⟨10, ⟨0⟩, ⟨0⟩, false⟩) = false
    ∧ homotopy (CElem.edge ⟨10, ⟨0⟩, ⟨0⟩, false⟩) (CElem.edge ⟨11, ⟨1⟩, ⟨2⟩, false⟩)
        ⟨20, [(0, 0), (1, 1), (2, 2)], [(10, Curve.stored 0), (11, Curve.stored 1)]⟩
        = openHomotopy (CElem.edge ⟨10, ⟨0⟩, ⟨0⟩, false⟩) (CElem.edge ⟨11, ⟨1⟩, ⟨2⟩, false⟩)
            ⟨20, [(0, 0), (1, 1), (2, 2)], [(10, Curve.stored 0), (11, Curve.stored 1)]⟩
    ∧ homotopy (CElem.edge ⟨10, ⟨0⟩, ⟨0⟩, false⟩) (CElem.edge ⟨11, ⟨1⟩, ⟨2⟩, false⟩)
        ⟨20, [(0, 0), (1, 1), (2, 2)], [(10, Curve.stored 0), (11, Curve.stored 1)]⟩
        ≠ Outcome.err Err.DifferentHomotopyType :=
  edge_homotopy_never_dht ⟨10, ⟨0⟩, ⟨0⟩, false⟩ ⟨11, ⟨1⟩, ⟨2⟩, false⟩
    ⟨20, [(0, 0), (1, 1), (2, 2)], [(10, Curve.stored 0), (11, Curve.stored 1)]⟩

/-- The wire `split_wire` succeeds exactly on wires of length ≥ 2. -/
lemma splitWire_some {w : Wire} {pr : Wire × Wire}
    (h : CElem.splitWire (CElem.wire w) = some pr) : 2 ≤ w.length := by
  simp only [CElem.splitWire] at h
  by_cases hlen : w.length < 2
  · rw [if_pos hlen] at h
    cases h
  · omega

/-- C10: closed-closed homotopy returns normally only when `split_wire`
succeeds on both operands, i.e. both closed wires have at least two
edges; a closed wire made of a single loop edge has `split_wire = none`
and drives `closed_homotopy` into the `unwrap` panic instead of an
error value. -/
theorem closed_homotopy_split_panic :
    (∀ (w₀ w₁ : Wire) (d : Director) (sh : Shell) (d' : Director),
        Wire.isClosed w₀ = true → Wire.isClosed w₁ = true →
        homotopy (CElem.wire w₀) (CElem.wire w₁) d = Outcome.ok (sh, d') →
        2 ≤ w₀.length ∧ 2 ≤ w₁.length)
    ∧ (∀ (e : Edge), e.front = e.back →
        Wire.isClosed [e] = true
        ∧ CElem.splitWire (CElem.wire [e]) = none
        ∧ ∀ (c : CElem) (d : Director), CElem.isClosed c = true →
            homotopy (CElem.wire [e]) c d = Outcome.panicked) := by
  constructor
  · intro w₀ w₁ d sh d' h₀ h₁ hok
    unfold homotopy at hok
    rw [show CElem.isClosed (CElem.wire w₀) = true from h₀,
        show CElem.isClosed (CElem.wire w₁) = true from h₁] at hok
    simp only [Bool.and_self, if_true] at hok
    unfold closedHomotopy at hok
    split at hok
    · cases hok
    · next pr₀ heq₀ =>
        split at hok
        · cases hok
        · next pr₁ heq₁ => exact ⟨splitWire_some heq₀, splitWire_some heq₁⟩
  · intro e he
    have hclosed : Wire.isClosed [e] = true := by
      simp [Wire.isClosed, Wire.frontV?, Wire.backV?, he]
    refine ⟨hclosed, rfl, ?_⟩
    intro c d hc
    unfold homotopy
    rw [show CElem.isClosed (CElem.wire [e]) = true from hclosed, hc]
    simp only [Bool.and_self, if_true]
    rfl

/-- C10 witness: the loop edge `(v₀ → v₀)` forms a closed one-edge wire
whose homotopy with the closed two-edge wire panics — through
`closed_homotopy_split_panic` at concrete inputs. -/
theorem closed_homotopy_split_panic_witness :
    Wire.isClosed [(⟨10, ⟨0⟩, ⟨0⟩, false⟩ : Edge)] = true
    ∧ CElem.splitWire (CElem.wire [⟨10, ⟨0⟩, ⟨0⟩, false⟩]) = none
    ∧ homotopy (CElem.wire [⟨10, ⟨0⟩, ⟨0⟩, false⟩])
        (CElem.wire [⟨13, ⟨1⟩, ⟨2⟩, false⟩, ⟨14, ⟨2⟩, ⟨1⟩, false⟩])
        ⟨20, [(0, 0), (1, 1), (2, 2)], [(10, Curve.stored 0)]⟩
      = Outcome.panicked := by
  obtain ⟨h1, h2, h3⟩ := closed_homotopy_split_panic.2 ⟨10, ⟨0⟩, ⟨0⟩, false⟩ rfl
  exact ⟨h1, h2, h3 _ _ (by decide)⟩

/-- C1 (code bug): `open_homotopy` pushes the edges of the second
operand inverted but in *forward* order (`for_each` +
`push_back(edge.inverse())`), instead of the reversed order that
`c1.reversed` requires (compare `closed_homotopy`, which uses
`wire.inverse()`).  For an open second operand with ≥ 2 edges the
pushes are incompatible and the assembled boundary never closes: at the
concrete failing input below (an edge `v0→v1` against the open two-edge
wire `v2→v3→v4`, all point and curve bindings present) the call returns
`Err(NotClosedWire)` instead of the single face promised by the claim. -/
theorem open_homotopy_forward_order_bug :
    CElem.isClosed (CElem.edge ⟨10, ⟨0⟩, ⟨1⟩, false⟩) = false
    ∧ CElem.isClosed (CElem.wire [⟨11, ⟨2⟩, ⟨3⟩, false⟩, ⟨12, ⟨3⟩, ⟨4⟩, false⟩]) = false
    ∧ homotopy (CElem.edge ⟨10, ⟨0⟩, ⟨1⟩, false⟩)
        (CElem.wire [⟨11, ⟨2⟩, ⟨3⟩, false⟩, ⟨12, ⟨3⟩, ⟨4⟩, false⟩])
        ⟨20, [(0, 0), (1, 1), (2, 2), (3, 3), (4, 4)],
         [(10, Curve.stored 0), (11, Curve.stored 1), (12, Curve.stored 2)]⟩
      = Outcome.err Err.NotClosedWire := by
  refine ⟨rfl, ?_, ?_⟩ <;> decide

/-! ## Closed-closed homotopy structure (claim C3) -/

/-- `front_vertex` of an appended wire with nonempty left part. -/
lemma frontV?_append {w₁ w₂ : Wire} (h : w₁ ≠ []) :
    Wire.frontV? (w₁ ++ w₂) = Wire.frontV? w₁ := by
  unfold Wire.frontV?
  cases w₁ with
  | nil => exact absurd rfl h
  | cons e tl => simp

/-- `back_vertex` of an appended wire with nonempty right part. -/
lemma backV?_append {w₁ w₂ : Wire} (h : w₂ ≠ []) :
    Wire.backV? (w₁ ++ w₂) = Wire.backV? w₂ := by
  unfold Wire.backV?
  rw [List.getLast?_append]
  cases hw : w₂.getLast? with
  | none => exact absurd (List.getLast?_eq_none_iff.mp hw) h
  | some e => simp

/-- The front vertex of an inverted wire is the back vertex of the wire. -/
lemma frontV?_inverse (w : Wire) : Wire.frontV? (Wire.inverse w) = Wire.backV? w := by
  unfold Wire.frontV? Wire.backV? Wire.inverse
  rw [List.head?_reverse, List.getLast?_map]
  cases w.getLast? <;> simp [Edge.inverse]

/-- The back vertex of an inverted wire is the front vertex of the wire. -/
lemma backV?_inverse (w : Wire) : Wire.backV? (Wire.inverse w) = Wire.frontV? w := by
  unfold Wire.frontV? Wire.backV? Wire.inverse
  rw [List.getLast?_reverse, List.head?_map]
  cases w.head? <;> simp [Edge.inverse]

/-- Wire inversion preserves nonemptiness. -/
lemma inverse_ne_nil {w : Wire} (h : w ≠ []) : Wire.inverse w ≠ [] := by
  unfold Wire.inverse
  simpa using h

/-- The chain condition across a concatenation point. -/
lemma chain'_cut {w₁ w₂ : Wire}
    (h : List.Chain' (fun a b => a.back = b.front) (w₁ ++ w₂))
    (h₁ : w₁ ≠ []) (h₂ : w₂ ≠ []) :
    Wire.backV? w₁ = Wire.frontV? w₂ := by
  rcases List.chain'_append.mp h with ⟨-, -, hcut⟩
  unfold Wire.backV? Wire.frontV?
  cases hl : w₁.getLast? with
  | none => exact absurd (List.getLast?_eq_none_iff.mp hl) h₁
  | some x =>
      cases hh : w₂.head? with
      | none => exact absurd (List.head?_eq_none_iff.mp hh) h₂
      | some y => simp [hcut x (by rw [hl]; rfl) y (by rw [hh]; rfl)]

/-- A `push_back` whose compatibility check holds appends the edge. -/
lemma pushDrop_ok {w : Wire} {e : Edge} (h : Wire.backV? w = some e.front) :
    Wire.pushDrop w e = w ++ [e] := by
  unfold Wire.pushDrop Wire.pushBack
  by_cases hw : List.isEmpty w
  · rw [if_pos hw]
  · rw [if_neg hw, if_pos h]

/-- An `append` whose compatibility check holds concatenates. -/
lemma appendDrop_ok {w w' : Wire} (h : Wire.backV? w = Wire.frontV? w') :
    Wire.appendDrop w w' = w ++ w' := by
  unfold Wire.appendDrop Wire.appendW
  by_cases hw : List.isEmpty w ∨ List.isEmpty w'
  · rw [if_pos hw]
  · rw [if_neg hw, if_pos h]

/-- `Face::try_new` succeeds on a nonempty closed wire. -/
lemma tryNew_ok {w : Wire} {s : Surface} (hne : w ≠ []) (hcl : Wire.isClosed w = true) :
    Face.tryNew w s = Except.ok { boundary := w, surface := s } := by
  unfold Face.tryNew
  rw [List.isEmpty_eq_false.mpr hne, hcl]
  simp

/-- No edge of a wire whose identities all differ from `n` is counted
by the id-`n` predicate. -/
lemma countP_id_zero {w : Wire} {n : ℕ} (h : ∀ e ∈ w, e.id ≠ n) :
    List.countP (fun x => x.id == n) w = 0 := by
  rw [List.countP_eq_zero]
  intro e he
  simp only [beq_iff_eq]
  exact h e he

/-- Identity bounds survive wire inversion. -/
lemma mem_inverse_id {w : Wire} {n : ℕ} (h : ∀ e ∈ w, e.id ≠ n) :
    ∀ e ∈ Wire.inverse w, e.id ≠ n := by
  intro e he
  unfold Wire.inverse at he
  simp only [List.mem_reverse, List.mem_map] at he
  obtain ⟨a, ha, rfl⟩ := he
  exact h a ha

/-- C3: homotopy of two closed wires (given well-formed operands — each
closed, chain-continuous, with ≥ 2 edges — and resolvable geometry:
per-half curves `γᵢ`, cut vertices, bound points) returns a shell of
exactly two lofted faces: each wire is cut after `⌊len/2⌋` edges
(`split_off`), face `i` carries `BSplineSurface::homotopy` of the
corresponding halves' curves, its boundary is the half, one bridging
line edge, the other wire's half inverted, and the other bridging edge
inverted; the two bridging edges are fresh (`e₀` at the front cut
vertices, `e₁` at the back cut vertices) and each occurs exactly once
in each face's boundary, with opposite orientation in the two faces
(`e₁`/`Edge.inverse e₁`, `Edge.inverse e₀`/`e₀`). -/
theorem closed_homotopy_two_faces
    (c₀ c₁ : Wire) (d : Director)
    (γ₀ γ₁ γ₂ γ₃ : Curve) (va0 vb0 va2 vb2 : Vertex) (p₀ p₁ p₂ p₃ : Nat)
    (h₀ : Wire.isClosed c₀ = true) (h₁ : Wire.isClosed c₁ = true)
    (hch₀ : List.Chain' (fun a b => a.back = b.front) c₀)
    (hch₁ : List.Chain' (fun a b => a.back = b.front) c₁)
    (hl₀ : 2 ≤ c₀.length) (hl₁ : 2 ≤ c₁.length)
    (hg₀ : Director.bsplineByWire d (c₀.take (c₀.length / 2)) = Except.ok γ₀)
    (hg₁ : Director.bsplineByWire d (c₀.drop (c₀.length / 2)) = Except.ok γ₁)
    (hg₂ : Director.bsplineByWire d (c₁.take (c₁.length / 2)) = Except.ok γ₂)
    (hg₃ : Director.bsplineByWire d (c₁.drop (c₁.length / 2)) = Except.ok γ₃)
    (hva0 : Wire.frontV? (c₀.take (c₀.length / 2)) = some va0)
    (hvb0 : Wire.backV? (c₀.take (c₀.length / 2)) = some vb0)
    (hva2 : Wire.frontV? (c₁.take (c₁.length / 2)) = some va2)
    (hvb2 : Wire.backV? (c₁.take (c₁.length / 2)) = some vb2)
    (hp₀ : Director.lookupPoint d va0 = some p₀)
    (hp₁ : Director.lookupPoint d vb0 = some p₁)
    (hp₂ : Director.lookupPoint d va2 = some p₂)
    (hp₃ : Director.lookupPoint d vb2 = some p₃)
    (hfresh₀ : ∀ e ∈ c₀, e.id < d.nextId)
    (hfresh₁ : ∀ e ∈ c₁, e.id < d.nextId) :
    ∃ e₀ e₁ : Edge,
      e₀ = ⟨d.nextId, va0, va2, false⟩
      ∧ e₁ = ⟨d.nextId + 1, vb0, vb2, false⟩
      ∧ homotopy (CElem.wire c₀) (CElem.wire c₁) d
          = Outcome.ok
              ([{ boundary := c₀.take (c₀.length / 2) ++ [e₁]
                    ++ Wire.inverse (c₁.take (c₁.length / 2)) ++ [Edge.inverse e₀],
                  surface := Surface.homotopy γ₀ γ₂ },
                { boundary := c₀.drop (c₀.length / 2) ++ [e₀]
                    ++ Wire.inverse (c₁.drop (c₁.length / 2)) ++ [Edge.inverse e₁],
                  surface := Surface.homotopy γ₁ γ₃ }],
               { nextId := d.nextId + 2, points := d.points,
                 curves := (d.nextId + 1, Curve.line p₁ p₃)
                   :: (d.nextId, Curve.line p₀ p₂) :: d.curves })
      ∧ List.countP (fun x => x.id == e₀.id)
          (c₀.take (c₀.length / 2) ++ [e₁]
            ++ Wire.inverse (c₁.take (c₁.length / 2)) ++ [Edge.inverse e₀]) = 1
      ∧ List.countP (fun x => x.id == e₀.id)
          (c₀.drop (c₀.length / 2) ++ [e₀]
            ++ Wire.inverse (c₁.drop (c₁.length / 2)) ++ [Edge.inverse e₁]) = 1
      ∧ List.countP (fun x => x.id == e₁.id)
          (c₀.take (c₀.length / 2) ++ [e₁]
            ++ Wire.inverse (c₁.take (c₁.length / 2)) ++ [Edge.inverse e₀]) = 1
      ∧ List.countP (fun x => x.id == e₁.id)
          (c₀.drop (c₀.length / 2) ++ [e₀]
            ++ Wire.inverse (c₁.drop (c₁.length / 2)) ++ [Edge.inverse e₁]) = 1 := by
  -- nonemptiness of the four halves
  have hc₀ne : c₀ ≠ [] := by intro h; subst h; simp at hl₀
  have hc₁ne : c₁ ≠ [] := by intro h; subst h; simp at hl₁
  have hw0ne : c₀.take (c₀.length / 2) ≠ [] := by
    rw [ne_eq, List.take_eq_nil_iff]
    push_neg
    exact ⟨by omega, hc₀ne⟩
  have hw1ne : c₀.drop (c₀.length / 2) ≠ [] := by
    rw [ne_eq, List.drop_eq_nil_iff]
    omega
  have hw2ne : c₁.take (c₁.length / 2) ≠ [] := by
    rw [ne_eq, List.take_eq_nil_iff]
    push_neg
    exact ⟨by omega, hc₁ne⟩
  have hw3ne : c₁.drop (c₁.length / 2) ≠ [] := by
    rw [ne_eq, List.drop_eq_nil_iff]
    omega
  -- closedness: front of each wire equals its back
  have hfb₀ : Wire.frontV? c₀ = Wire.backV? c₀ := by
    unfold Wire.isClosed at h₀
    simp only [Bool.and_eq_true, decide_eq_true_eq] at h₀
    exact h₀.2
  have hfb₁ : Wire.frontV? c₁ = Wire.backV? c₁ := by
    unfold Wire.isClosed at h₁
    simp only [Bool.and_eq_true, decide_eq_true_eq] at h₁
    exact h₁.2
  -- vertex bookkeeping around the two cuts
  have hsplit₀ : c₀.take (c₀.length / 2) ++ c₀.drop (c₀.length / 2) = c₀ :=
    List.take_append_drop _ _
  have hsplit₁ : c₁.take (c₁.length / 2) ++ c₁.drop (c₁.length / 2) = c₁ :=
    List.take_append_drop _ _
  have hcut₀ : Wire.backV? (c₀.take (c₀.length / 2)) = Wire.frontV? (c₀.drop (c₀.length / 2)) :=
    chain'_cut (by rw [hsplit₀]; exact hch₀) hw0ne hw1ne
  have hcut₁ : Wire.backV? (c₁.take (c₁.length / 2)) = Wire.frontV? (c₁.drop (c₁.length / 2)) :=
    chain'_cut (by rw [hsplit₁]; exact hch₁) hw2ne hw3ne
  have hfc₀ : Wire.frontV? c₀ = some va0 := by
    rw [← hsplit₀, frontV?_append hw0ne, hva0]
  have hbc₀ : Wire.backV? c₀ = some va0 := by rw [← hfb₀, hfc₀]
  have hb1 : Wire.backV? (c₀.drop (c₀.length / 2)) = some va0 := by
    rw [← hbc₀]
    conv_rhs => rw [← hsplit₀]
    rw [backV?_append hw1ne]
  have hf1 : Wire.frontV? (c₀.drop (c₀.length / 2)) = some vb0 := by
    rw [← hcut₀, hvb0]
  have hfc₁ : Wire.frontV? c₁ = some va2 := by
    rw [← hsplit₁, frontV?_append hw2ne, hva2]
  have hbc₁ : Wire.backV? c₁ = some va2 := by rw [← hfb₁, hfc₁]
  have hb3 : Wire.backV? (c₁.drop (c₁.length / 2)) = some va2 := by
    rw [← hbc₁]
    conv_rhs => rw [← hsplit₁]
    rw [backV?_append hw3ne]
  have hf3 : Wire.frontV? (c₁.drop (c₁.length / 2)) = some vb2 := by
    rw [← hcut₁, hvb2]
  -- split the two wires
  have hsp₀ : CElem.splitWire (CElem.wire c₀)
      = some (c₀.take (c₀.length / 2), c₀.drop (c₀.length / 2)) := by
    simp only [CElem.splitWire, if_neg (by omega : ¬(c₀.length < 2))]
  have hsp₁ : CElem.splitWire (CElem.wire c₁)
      = some (c₁.take (c₁.length / 2), c₁.drop (c₁.length / 2)) := by
    simp only [CElem.splitWire, if_neg (by omega : ¬(c₁.length < 2))]
  -- point lookups in find?-form (stable under the director update)
  have hp₀' : (List.find? (fun pr => pr.1 == va0.id) d.points).map Prod.snd = some p₀ := hp₀
  have hp₁' : (List.find? (fun pr => pr.1 == vb0.id) d.points).map Prod.snd = some p₁ := hp₁
  have hp₂' : (List.find? (fun pr => pr.1 == va2.id) d.points).map Prod.snd = some p₂ := hp₂
  have hp₃' : (List.find? (fun pr => pr.1 == vb2.id) d.points).map Prod.snd = some p₃ := hp₃
  -- the wire assemblies
  have hW0a : Wire.pushDrop (c₀.take (c₀.length / 2))
        (⟨d.nextId + 1, vb0, vb2, false⟩ : Edge)
      = c₀.take (c₀.length / 2) ++ [⟨d.nextId + 1, vb0, vb2, false⟩] :=
    pushDrop_ok (by rw [hvb0])
  have hW0b : Wire.appendDrop
        (c₀.take (c₀.length / 2) ++ [(⟨d.nextId + 1, vb0, vb2, false⟩ : Edge)])
        (Wire.inverse (c₁.take (c₁.length / 2)))
      = c₀.take (c₀.length / 2) ++ [⟨d.nextId + 1, vb0, vb2, false⟩]
          ++ Wire.inverse (c₁.take (c₁.length / 2)) :=
    appendDrop_ok (by
      rw [backV?_append (by simp), frontV?_inverse, hvb2]
      rfl)
  have hW0c : Wire.pushDrop
        (c₀.take (c₀.length / 2) ++ [(⟨d.nextId + 1, vb0, vb2, false⟩ : Edge)]
          ++ Wire.inverse (c₁.take (c₁.length / 2)))
        (Edge.inverse ⟨d.nextId, va0, va2, false⟩)
      = c₀.take (c₀.length / 2) ++ [⟨d.nextId + 1, vb0, vb2, false⟩]
          ++ Wire.inverse (c₁.take (c₁.length / 2))
          ++ [Edge.inverse ⟨d.nextId, va0, va2, false⟩] :=
    pushDrop_ok (by
      rw [backV?_append (inverse_ne_nil hw2ne), backV?_inverse, hva2]
      rfl)
  have hW1a : Wire.pushDrop (c₀.drop (c₀.length / 2))
        (⟨d.nextId, va0, va2, false⟩ : Edge)
      = c₀.drop (c₀.length / 2) ++ [⟨d.nextId, va0, va2, false⟩] :=
    pushDrop_ok (by rw [hb1])
  have hW1b : Wire.appendDrop
        (c₀.drop (c₀.length / 2) ++ [(⟨d.nextId, va0, va2, false⟩ : Edge)])
        (Wire.inverse (c₁.drop (c₁.length / 2)))
      = c₀.drop (c₀.length / 2) ++ [⟨d.nextId, va0, va2, false⟩]
          ++ Wire.inverse (c₁.drop (c₁.length / 2)) :=
    appendDrop_ok (by
      rw [backV?_append (by simp), frontV?_inverse, hb3]
      rfl)
  have hW1c : Wire.pushDrop
        (c₀.drop (c₀.length / 2) ++ [(⟨d.nextId, va0, va2, false⟩ : Edge)]
          ++ Wire.inverse (c₁.drop (c₁.length / 2)))
        (Edge.inverse ⟨d.nextId + 1, vb0, vb2, false⟩)
      = c₀.drop (c₀.length / 2) ++ [⟨d.nextId, va0, va2, false⟩]
          ++ Wire.inverse (c₁.drop (c₁.length / 2))
          ++ [Edge.inverse ⟨d.nextId + 1, vb0, vb2, false⟩] :=
    pushDrop_ok (by
      rw [backV?_append (inverse_ne_nil hw3ne), backV?_inverse, hf3]
      rfl)
  -- both assembled wires are nonempty and closed
  have hcl₀ : Wire.isClosed
      (c₀.take (c₀.length / 2) ++ [(⟨d.nextId + 1, vb0, vb2, false⟩ : Edge)]
        ++ Wire.inverse (c₁.take (c₁.length / 2))
        ++ [Edge.inverse ⟨d.nextId, va0, va2, false⟩]) = true := by
    unfold Wire.isClosed
    rw [frontV?_append (by simp [hw0ne]), frontV?_append (by simp [hw0ne]),
      frontV?_append hw0ne, backV?_append (by simp), hva0]
    simp [Wire.backV?, Edge.inverse]
  have hcl₁ : Wire.isClosed
      (c₀.drop (c₀.length / 2) ++ [(⟨d.nextId, va0, va2, false⟩ : Edge)]
        ++ Wire.inverse (c₁.drop (c₁.length / 2))
        ++ [Edge.inverse ⟨d.nextId + 1, vb0, vb2, false⟩]) = true := by
    unfold Wire.isClosed
    rw [frontV?_append (by simp [hw1ne]), frontV?_append (by simp [hw1ne]),
      frontV?_append hw1ne, backV?_append (by simp), hf1]
    simp [Wire.backV?, Edge.inverse]
  -- identity freshness facts for the occurrence counts
  have hne₀t : ∀ e ∈ c₀.take (c₀.length / 2), e.id ≠ d.nextId := fun e he =>
    Nat.ne_of_lt (hfresh₀ e (List.mem_of_mem_take he))
  have hne₀d : ∀ e ∈ c₀.drop (c₀.length / 2), e.id ≠ d.nextId := fun e he =>
    Nat.ne_of_lt (hfresh₀ e (List.mem_of_mem_drop he))
  have hne₁t : ∀ e ∈ c₁.take (c₁.length / 2), e.id ≠ d.nextId := fun e he =>
    Nat.ne_of_lt (hfresh₁ e (List.mem_of_mem_take he))
  have hne₁d : ∀ e ∈ c₁.drop (c₁.length / 2), e.id ≠ d.nextId := fun e he =>
    Nat.ne_of_lt (hfresh₁ e (List.mem_of_mem_drop he))
  have hne₀t' : ∀ e ∈ c₀.take (c₀.length / 2), e.id ≠ d.nextId + 1 := fun e he => by
    have := hfresh₀ e (List.mem_of_mem_take he); omega
  have hne₀d' : ∀ e ∈ c₀.drop (c₀.length / 2), e.id ≠ d.nextId + 1 := fun e he => by
    have := hfresh₀ e (List.mem_of_mem_drop he); omega
  have hne₁t' : ∀ e ∈ c₁.take (c₁.length / 2), e.id ≠ d.nextId + 1 := fun e he => by
    have := hfresh₁ e (List.mem_of_mem_take he); omega
  have hne₁d' : ∀ e ∈ c₁.drop (c₁.length / 2), e.id ≠ d.nextId + 1 := fun e he => by
    have := hfresh₁ e (List.mem_of_mem_drop he); omega
  refine ⟨⟨d.nextId, va0, va2, false⟩, ⟨d.nextId + 1, vb0, vb2, false⟩, rfl, rfl,
    ?_, ?_, ?_, ?_, ?_⟩
  · -- the main computation
    unfold homotopy
    simp only [CElem.isClosed, h₀, h₁, Bool.and_self, if_true]
    unfold closedHomotopy
    simp only [hsp₀, hsp₁, hg₀, hg₁, hg₂, hg₃, hva0, hva2, hvb0, hvb2,
      Director.line, Director.lookupPoint, hp₀', hp₁', hp₂', hp₃']
    rw [hW0a, hW0b, hW0c, hW1a, hW1b, hW1c]
    rw [tryNew_ok (by simp [hw0ne]) hcl₀, tryNew_ok (by simp [hw1ne]) hcl₁]
  · simp only [List.countP_append,
      countP_id_zero hne₀t, countP_id_zero (mem_inverse_id hne₁t),
      List.countP_cons, List.countP_nil, Edge.inverse, beq_iff_eq]
    simp
  · simp only [List.countP_append,
      countP_id_zero hne₀d, countP_id_zero (mem_inverse_id hne₁d),
      List.countP_cons, List.countP_nil, Edge.inverse, beq_iff_eq]
    simp
  · simp only [List.countP_append,
      countP_id_zero hne₀t', countP_id_zero (mem_inverse_id hne₁t'),
      List.countP_cons, List.countP_nil, Edge.inverse, beq_iff_eq]
    simp
  · simp only [List.countP_append,
      countP_id_zero hne₀d', countP_id_zero (mem_inverse_id hne₁d'),
      List.countP_cons, List.countP_nil, Edge.inverse, beq_iff_eq]
    simp

/-- C3 witness: two concrete closed two-edge wires (a digon over
vertices 0,1 and one over 2,3) with all geometry bound; the homotopy
returns a two-face shell, through `closed_homotopy_two_faces`. -/
theorem closed_homotopy_two_faces_witness :
    ∃ sh d',
      homotopy
          (CElem.wire [⟨13, ⟨0⟩, ⟨1⟩, false⟩, ⟨14, ⟨1⟩, ⟨0⟩, false⟩])
          (CElem.wire [⟨15, ⟨2⟩, ⟨3⟩, false⟩, ⟨16, ⟨3⟩, ⟨2⟩, false⟩])
          ⟨20, [(0, 0), (1, 1), (2, 2), (3, 3)],
           [(13, Curve.stored 3), (14, Curve.stored 4),
            (15, Curve.stored 5), (16, Curve.stored 6)]⟩
        = Outcome.ok (sh, d')
      ∧ sh.length = 2 := by
  obtain ⟨e₀, e₁, -, -, hmain, -, -, -, -⟩ :=
    closed_homotopy_two_faces
      [⟨13, ⟨0⟩, ⟨1⟩, false⟩, ⟨14, ⟨1⟩, ⟨0⟩, false⟩]
      [⟨15, ⟨2⟩, ⟨3⟩, false⟩, ⟨16, ⟨3⟩, ⟨2⟩, false⟩]
      ⟨20, [(0, 0), (1, 1), (2, 2), (3, 3)],
       [(13, Curve.stored 3), (14, Curve.stored 4),
        (15, Curve.stored 5), (16, Curve.stored 6)]⟩
      (Curve.stored 3) (Curve.stored 4) (Curve.stored 5) (Curve.stored 6)
      ⟨0⟩ ⟨1⟩ ⟨2⟩ ⟨3⟩ 0 1 2 3
      (by decide) (by decide)
      (by simp [List.chain'_cons]) (by simp [List.chain'_cons])
      (by decide) (by decide)
      rfl rfl rfl rfl
      (by decide) (by decide) (by decide) (by decide)
      (by decide) (by decide) (by decide) (by decide)
      (by decide) (by decide)
  exact ⟨_, _, hmain, rfl⟩

/-! ## Face tessellation boundary pass (claims C4, C5, C6) -/

/-- Membership in the `presearch` iteration sequence is exactly the
51×51 index grid. -/
lemma mem_presearchPairs {i j : ℕ} : (i, j) ∈ presearchPairs ↔ i < 51 ∧ j < 51 := by
  simp [presearchPairs]

/-- The `presearch` loop kept running from a `some` state returns a
grid point (or the incoming one) achieving the minimum of the measure
over the incoming state and all processed grid points. -/
lemma presearch_fold (s : TessSurface) (point : Pt3) :
    ∀ (l : List (ℕ × ℕ)) (res : ℚ × ℚ) (m : ℚ),
      ∃ (res' : ℚ × ℚ) (m' : ℚ),
        l.foldl (presearchStep s point) (res, some m) = (res', some m')
        ∧ ((res' = res ∧ m' = m)
            ∨ ∃ ij ∈ l, res' = gridPt s ij.1 ij.2
                ∧ m' = Pt3.dist2 (s.subs (gridPt s ij.1 ij.2).1 (gridPt s ij.1 ij.2).2) point)
        ∧ m' ≤ m
        ∧ ∀ ij ∈ l,
            m' ≤ Pt3.dist2 (s.subs (gridPt s ij.1 ij.2).1 (gridPt s ij.1 ij.2).2) point := by
  intro l
  induction l with
  | nil =>
      intro res m
      exact ⟨res, m, rfl, Or.inl ⟨rfl, rfl⟩, le_refl m, by simp⟩
  | cons a l ih =>
      intro res m
      by_cases hlt :
          Pt3.dist2 (s.subs (gridPt s a.1 a.2).1 (gridPt s a.1 a.2).2) point < m
      · obtain ⟨res', m', heq, hdisj, hle, hmin⟩ :=
          ih (gridPt s a.1 a.2)
            (Pt3.dist2 (s.subs (gridPt s a.1 a.2).1 (gridPt s a.1 a.2).2) point)
        refine ⟨res', m', ?_, ?_, ?_, ?_⟩
        · rw [List.foldl_cons]
          rw [show presearchStep s point (res, some m) a
              = (gridPt s a.1 a.2,
                 some (Pt3.dist2 (s.subs (gridPt s a.1 a.2).1 (gridPt s a.1 a.2).2) point)) by
            simp [presearchStep, hlt]]
          exact heq
        · rcases hdisj with ⟨hres, hm⟩ | ⟨ij, hij, hres, hm⟩
          · exact Or.inr ⟨a, List.mem_cons_self a l, hres, hm⟩
          · exact Or.inr ⟨ij, List.mem_cons_of_mem a hij, hres, hm⟩
        · exact le_of_lt (lt_of_le_of_lt hle hlt)
        · intro ij hij
          rcases List.mem_cons.mp hij with rfl | hmem
          · exact hle
          · exact hmin ij hmem
      · obtain ⟨res', m', heq, hdisj, hle, hmin⟩ := ih res m
        refine ⟨res', m', ?_, ?_, hle, ?_⟩
        · rw [List.foldl_cons]
          rw [show presearchStep s point (res, some m) a = (res, some m) by
            simp [presearchStep, hlt]]
          exact heq
        · rcases hdisj with ⟨hres, hm⟩ | ⟨ij, hij, hres, hm⟩
          · exact Or.inl ⟨hres, hm⟩
          · exact Or.inr ⟨ij, List.mem_cons_of_mem a hij, hres, hm⟩
        · intro ij hij
          rcases List.mem_cons.mp hij with rfl | hmem
          · exact le_trans hle (not_lt.mp hlt)
          · exact hmin ij hmem

/-- C6: `presearch` returns a parameter pair of the 51×51 affine grid
over the knot ranges whose surface value minimizes the squared distance
to the given point over the whole grid. -/
theorem presearch_grid_argmin (s : TessSurface) (point : Pt3) :
    (∃ i ≤ 50, ∃ j ≤ 50, presearch s point = gridPt s i j)
    ∧ ∀ i j : ℕ, i ≤ 50 → j ≤ 50 →
        Pt3.dist2 (s.subs (presearch s point).1 (presearch s point).2) point
          ≤ Pt3.dist2 (s.subs (gridPt s i j).1 (gridPt s i j).2) point := by
  obtain ⟨res', m', heq, hdisj, hle, hmin⟩ :=
    presearch_fold s point presearchPairs.tail (gridPt s 0 0)
      (Pt3.dist2 (s.subs (gridPt s 0 0).1 (gridPt s 0 0).2) point)
  have hpre : presearch s point = res' := by
    unfold presearch
    rw [show presearchPairs = (0, 0) :: presearchPairs.tail from rfl, List.foldl_cons]
    rw [show presearchStep s point ((0, 0), none) (0, 0)
        = (gridPt s 0 0,
           some (Pt3.dist2 (s.subs (gridPt s 0 0).1 (gridPt s 0 0).2) point)) from rfl]
    rw [heq]
  have hdist : Pt3.dist2 (s.subs res'.1 res'.2) point = m' := by
    rcases hdisj with ⟨hres, hm⟩ | ⟨ij, _, hres, hm⟩
    · rw [hres, hm]
    · rw [hres, hm]
  constructor
  · rcases hdisj with ⟨hres, _⟩ | ⟨ij, hij, hres, _⟩
    · exact ⟨0, by omega, 0, by omega, by rw [hpre, hres]⟩
    · obtain ⟨i, j⟩ := ij
      have hb : i < 51 ∧ j < 51 :=
        mem_presearchPairs.mp (List.mem_of_mem_tail hij)
      exact ⟨i, by omega, j, by omega, by rw [hpre, hres]⟩
  · intro i j hi hj
    rw [hpre, hdist]
    have hmem : (i, j) ∈ presearchPairs := mem_presearchPairs.mpr ⟨by omega, by omega⟩
    rw [show presearchPairs = (0, 0) :: presearchPairs.tail from rfl] at hmem
    rcases List.mem_cons.mp hmem with h00 | htail
    · have : i = 0 ∧ j = 0 := by
        exact ⟨congrArg Prod.fst h00, congrArg Prod.snd h00⟩
      obtain ⟨rfl, rfl⟩ := this
      exact hle
    · exact hmin (i, j) htail


/-- The imperative fold of `face_buffer`'s inner loop agrees with the
`hintChain` recursion. -/
lemma foldl_chainStep (s : TessSurface) (c : TessCurve) :
    ∀ (ts : List ℚ) (hint : ℚ × ℚ) (acc : List (ℚ × ℚ)),
      (ts.foldl (chainStep s c) (some (hint, acc))).map Prod.snd
        = (hintChain s c ts hint).map (fun l => acc ++ l) := by
  intro ts
  induction ts with
  | nil => intro hint acc; simp [hintChain]
  | cons t rest ih =>
      intro hint acc
      rw [List.foldl_cons]
      show (rest.foldl (chainStep s c)
          (match s.searchParameter (c.subs t) hint with
           | none => none
           | some hint' => some (hint', acc ++ [hint']))).map Prod.snd = _
      cases hs : s.searchParameter (c.subs t) hint with
      | none =>
          have : ∀ (l : List ℚ), l.foldl (chainStep s c) none = none := by
            intro l
            induction l with
            | nil => rfl
            | cons x xs ihx => rw [List.foldl_cons]; exact ihx
          simp [hintChain, hs, this rest]
      | some hint' =>
          rw [ih hint' (acc ++ [hint'])]
          simp [hintChain, hs, Option.map_map]
          rfl

/-- A successful hint chain has one found parameter pair per division
point. -/
lemma hintChain_length (s : TessSurface) (c : TessCurve) :
    ∀ (ts : List ℚ) (hint : ℚ × ℚ) (ps : List (ℚ × ℚ)),
      hintChain s c ts hint = some ps → ps.length = ts.length := by
  intro ts
  induction ts with
  | nil => intro hint ps h; cases h; rfl
  | cons t rest ih =>
      intro hint ps h
      unfold hintChain at h
      cases hs : s.searchParameter (c.subs t) hint with
      | none => rw [hs] at h; exact absurd h (by simp)
      | some hint' =>
          rw [hs] at h
          dsimp only at h
          cases hc : hintChain s c rest hint' with
          | none => rw [hc] at h; cases h
          | some l =>
              rw [hc] at h
              injection h with h
              subst h
              simp [ih hint' l hc]

/-- The per-edge boundary pass is the hint chain seeded by `presearch`
at the curve value of `division[0]` (and fails on an empty division —
the Rust `division[0]` panic). -/
lemma edgeBoundaryPts_eq_chain (s : TessSurface) (c : TessCurve) :
    edgeBoundaryPts s c
      = match c.division with
        | [] => none
        | t₀ :: _ => hintChain s c c.division (presearch s (c.subs t₀)) := by
  unfold edgeBoundaryPts
  cases hd : c.division with
  | nil => rfl
  | cons t₀ rest =>
      dsimp only
      rw [foldl_chainStep]
      cases hintChain s c (t₀ :: rest) (presearch s (c.subs t₀)) <;> simp

/-- One emitted segment per consecutive pair of found parameter points. -/
lemma windowPairs_length (ps : List (ℚ × ℚ)) :
    (windowPairs ps).length = ps.length - 1 := by
  simp [windowPairs]

/-- C5: when a face's boundary pass succeeds, its output decomposes
into per-edge point lists: each edge's list is the hint chain over its
own `parameter_division`, seeded by a fresh `presearch` at the curve
value of the edge's first division point; the emitted segments are the
consecutive pairs of each edge's points, so an edge with `k` division
points contributes exactly `k − 1` segments. -/
theorem face_boundary_structure (s : TessSurface) :
    ∀ (es : List TessCurve) (b : List ((ℚ × ℚ) × (ℚ × ℚ))),
      faceBoundary s es = some b →
      ∃ pss : List (List (ℚ × ℚ)),
        pss.length = es.length
        ∧ (∀ (k : ℕ) (hk : k < es.length) (hk' : k < pss.length),
            ∃ t₀ rest, (es.get ⟨k, hk⟩).division = t₀ :: rest
              ∧ hintChain s (es.get ⟨k, hk⟩) ((es.get ⟨k, hk⟩).division)
                  (presearch s ((es.get ⟨k, hk⟩).subs t₀)) = some (pss.get ⟨k, hk'⟩)
              ∧ (pss.get ⟨k, hk'⟩).length = (es.get ⟨k, hk⟩).division.length)
        ∧ b = (pss.map windowPairs).flatten
        ∧ ∀ (k : ℕ) (hk' : k < pss.length) (hk : k < es.length),
            (windowPairs (pss.get ⟨k, hk'⟩)).length + 1
              = (es.get ⟨k, hk⟩).division.length := by
  intro es
  induction es with
  | nil =>
      intro b hb
      refine ⟨[], rfl, ?_, ?_, ?_⟩
      · intro k hk; exact absurd hk (by simp)
      · injection hb with hb; rw [← hb]; rfl
      · intro k hk'; exact absurd hk' (by simp)
  | cons c rest ih =>
      intro b hb
      unfold faceBoundary at hb
      cases h1 : edgeBoundaryPts s c with
      | none => rw [h1] at hb; cases hb
      | some pts =>
          rw [h1] at hb
          dsimp only at hb
          cases h2 : faceBoundary s rest with
          | none => rw [h2] at hb; cases hb
          | some segs =>
              rw [h2] at hb
              dsimp only at hb
              injection hb with hb
              obtain ⟨pss, hlen, hchain, hflat, hcount⟩ := ih segs h2
              have hc1 := edgeBoundaryPts_eq_chain s c
              rw [h1] at hc1
              refine ⟨pts :: pss, by simp [hlen], ?_, ?_, ?_⟩
              · intro k hk hk'
                cases k with
                | zero =>
                    cases hd : c.division with
                    | nil => rw [hd] at hc1; cases hc1
                    | cons t₀ r =>
                        rw [hd] at hc1
                        dsimp only at hc1
                        refine ⟨t₀, r, by simp [hd], ?_, ?_⟩
                        · simp only [List.get]
                          rw [hd]
                          exact hc1.symm
                        · simp only [List.get]
                          have := hintChain_length s c (t₀ :: r)
                            (presearch s (c.subs t₀)) pts hc1.symm
                          simp [hd, this]
                | succ k =>
                    have hk2 : k < rest.length := by simpa using hk
                    have hk2' : k < pss.length := by simpa using hk'
                    obtain ⟨t₀, r, hdiv, hch, hl⟩ := hchain k hk2 hk2'
                    exact ⟨t₀, r, hdiv, hch, hl⟩
              · rw [← hb, hflat]
                simp
              · intro k hk' hk
                cases k with
                | zero =>
                    cases hd : c.division with
                    | nil => rw [hd] at hc1; cases hc1
                    | cons t₀ r =>
                        rw [hd] at hc1
                        dsimp only at hc1
                        have := hintChain_length s c (t₀ :: r)
                          (presearch s (c.subs t₀)) pts hc1.symm
                        simp only [List.get]
                        rw [windowPairs_length]
                        simp [hd, this]
                | succ k =>
                    have hk2 : k < rest.length := by simpa using hk
                    have hk2' : k < pss.length := by simpa using hk'
                    exact hcount k hk2' hk2

/-- C4 (amended): a failed inverse search fails the whole per-face
boundary pass (`face_buffer` returns `None`, signaled to its caller);
but `Shell`/`Solid` `into_instance` `unwrap` that result, so one
failing face panics the entire instance construction. -/
theorem tessellation_failure_propagation :
    (∀ (s : TessSurface) (es : List TessCurve) (c : TessCurve),
        c ∈ es → edgeBoundaryPts s c = none → faceBoundary s es = none)
    ∧ (∀ (fs : List RFace) (f : RFace), f ∈ fs → faceBuffer f = none →
        intoInstanceShell fs = Outcome.panicked)
    ∧ (∀ (shells : List (List RFace)) (sh : List RFace) (f : RFace),
        sh ∈ shells → f ∈ sh → faceBuffer f = none →
        intoInstanceSolid shells = Outcome.panicked) := by
  have part1 : ∀ (s : TessSurface) (es : List TessCurve) (c : TessCurve),
      c ∈ es → edgeBoundaryPts s c = none → faceBoundary s es = none := by
    intro s es
    induction es with
    | nil => intro c hc; exact absurd hc (by simp)
    | cons c' rest ih =>
        intro c hc hfail
        unfold faceBoundary
        cases h1 : edgeBoundaryPts s c' with
        | none => rfl
        | some pts =>
            rcases List.mem_cons.mp hc with rfl | hmem
            · rw [h1] at hfail; cases hfail
            · rw [ih c hmem hfail]
  have part2 : ∀ (fs : List RFace) (f : RFace), f ∈ fs → faceBuffer f = none →
      intoInstanceShell fs = Outcome.panicked := by
    intro fs
    induction fs with
    | nil => intro f hf; exact absurd hf (by simp)
    | cons f' rest ih =>
        intro f hf hfail
        unfold intoInstanceShell
        cases h1 : faceBuffer f' with
        | none => rfl
        | some b =>
            rcases List.mem_cons.mp hf with rfl | hmem
            · rw [h1] at hfail; cases hfail
            · rw [ih f hmem hfail]
  refine ⟨part1, part2, ?_⟩
  intro shells sh f hsh hf hfail
  unfold intoInstanceSolid
  refine part2 _ f ?_ hfail
  induction shells with
  | nil => exact absurd hsh (by simp)
  | cons sh' rest ih =>
      rw [List.foldr_cons]
      rcases List.mem_cons.mp hsh with rfl | hmem
      · exact List.mem_append_left _ hf
      · exact List.mem_append_right _ (ih hmem)

/-- C4 (counterexample to the claim as stated): with a two-face shell
whose first face has a failing inverse search and whose second face
tessellates fine, building the shell instance panics (`unwrap` of
`None`) — the failure is not contained to the affected face and no
error value reaches the caller. -/
theorem shell_instance_unwrap_panics :
    intoInstanceShell
        [⟨⟨fun _ _ => ⟨0, 0, 0⟩, 0, 1, 0, 1, fun _ _ => none⟩,
          [⟨fun _ => ⟨0, 0, 0⟩, [0, 1]⟩]⟩,
         ⟨⟨fun _ _ => ⟨0, 0, 0⟩, 0, 1, 0, 1, fun _ h => some h⟩,
          [⟨fun _ => ⟨0, 0, 0⟩, [0]⟩]⟩]
      = Outcome.panicked
    ∧ faceBuffer
        ⟨⟨fun _ _ => ⟨0, 0, 0⟩, 0, 1, 0, 1, fun _ h => some h⟩,
         [⟨fun _ => ⟨0, 0, 0⟩, [0]⟩]⟩
      ≠ none := by
  constructor
  · rfl
  · intro h
    rw [show faceBuffer
        ⟨⟨fun _ _ => ⟨0, 0, 0⟩, 0, 1, 0, 1, fun _ h => some h⟩,
         [⟨fun _ => ⟨0, 0, 0⟩, [0]⟩]⟩
      = some { boundary := [], boundaryLength := 0 } from rfl] at h
    cases h

/-- C4 witness for the amended statement: the failing face makes the
boundary pass, the shell build, and the solid build all fail, through
`tessellation_failure_propagation` at concrete inputs. -/
theorem tessellation_failure_propagation_witness :
    faceBoundary ⟨fun _ _ => ⟨0, 0, 0⟩, 0, 1, 0, 1, fun _ _ => none⟩
        [⟨fun _ => ⟨0, 0, 0⟩, [0, 1]⟩]
      = none
    ∧ intoInstanceShell
        [⟨⟨fun _ _ => ⟨0, 0, 0⟩, 0, 1, 0, 1, fun _ _ => none⟩,
          [⟨fun _ => ⟨0, 0, 0⟩, [0, 1]⟩]⟩]
      = Outcome.panicked
    ∧ intoInstanceSolid
        [[⟨⟨fun _ _ => ⟨0, 0, 0⟩, 0, 1, 0, 1, fun _ _ => none⟩,
           [⟨fun _ => ⟨0, 0, 0⟩, [0, 1]⟩]⟩]]
      = Outcome.panicked :=
  ⟨tessellation_failure_propagation.1
      ⟨fun _ _ => ⟨0, 0, 0⟩, 0, 1, 0, 1, fun _ _ => none⟩
      [⟨fun _ => ⟨0, 0, 0⟩, [0, 1]⟩]
      ⟨fun _ => ⟨0, 0, 0⟩, [0, 1]⟩
      (by simp) rfl,
   tessellation_failure_propagation.2.1
      [⟨⟨fun _ _ => ⟨0, 0, 0⟩, 0, 1, 0, 1, fun _ _ => none⟩,
        [⟨fun _ => ⟨0, 0, 0⟩, [0, 1]⟩]⟩]
      ⟨⟨fun _ _ => ⟨0, 0, 0⟩, 0, 1, 0, 1, fun _ _ => none⟩,
       [⟨fun _ => ⟨0, 0, 0⟩, [0, 1]⟩]⟩
      (by simp) rfl,
   tessellation_failure_propagation.2.2
      [[⟨⟨fun _ _ => ⟨0, 0, 0⟩, 0, 1, 0, 1, fun _ _ => none⟩,
         [⟨fun _ => ⟨0, 0, 0⟩, [0, 1]⟩]⟩]]
      [⟨⟨fun _ _ => ⟨0, 0, 0⟩, 0, 1, 0, 1, fun _ _ => none⟩,
        [⟨fun _ => ⟨0, 0, 0⟩, [0, 1]⟩]⟩]
      ⟨⟨fun _ _ => ⟨0, 0, 0⟩, 0, 1, 0, 1, fun _ _ => none⟩,
       [⟨fun _ => ⟨0, 0, 0⟩, [0, 1]⟩]⟩
      (by simp) (by simp) rfl⟩

/-- C5 witness: a one-edge face with a single division point yields a
successful boundary pass with one per-edge point list and zero
segments, through `face_boundary_structure` at a concrete input. -/
theorem face_boundary_structure_witness :
    faceBoundary ⟨fun _ _ => ⟨0, 0, 0⟩, 0, 1, 0, 1, fun _ h => some h⟩
        [⟨fun _ => ⟨0, 0, 0⟩, [0]⟩]
      = some []
    ∧ ∃ pss : List (List (ℚ × ℚ)),
        pss.length = 1 ∧ ([] : List ((ℚ × ℚ) × (ℚ × ℚ))) = (pss.map windowPairs).flatten := by
  have h : faceBoundary ⟨fun _ _ => ⟨0, 0, 0⟩, 0, 1, 0, 1, fun _ h => some h⟩
      [⟨fun _ => ⟨0, 0, 0⟩, [0]⟩] = some [] := rfl
  obtain ⟨pss, hlen, -, hflat, -⟩ :=
    face_boundary_structure _ [⟨fun _ => ⟨0, 0, 0⟩, [0]⟩] [] h
  exact ⟨h, pss, by simpa using hlen, hflat⟩

/-- C6 witness: `presearch` at a concrete constant surface is at least
as close as the grid point `(7, 9)`, through `presearch_grid_argmin`. -/
theorem presearch_grid_argmin_witness :
    Pt3.dist2
        ((⟨fun _ _ => ⟨0, 0, 0⟩, 0, 1, 0, 1, fun _ h => some h⟩ : TessSurface).subs
          (presearch ⟨fun _ _ => ⟨0, 0, 0⟩, 0, 1, 0, 1, fun _ h => some h⟩ ⟨1, 2, 3⟩).1
          (presearch ⟨fun _ _ => ⟨0, 0, 0⟩, 0, 1, 0, 1, fun _ h => some h⟩ ⟨1, 2, 3⟩).2)
        ⟨1, 2, 3⟩
      ≤ Pt3.dist2
        ((⟨fun _ _ => ⟨0, 0, 0⟩, 0, 1, 0, 1, fun _ h => some h⟩ : TessSurface).subs
          (gridPt ⟨fun _ _ => ⟨0, 0, 0⟩, 0, 1, 0, 1, fun _ h => some h⟩ 7 9).1
          (gridPt ⟨fun _ _ => ⟨0, 0, 0⟩, 0, 1, 0, 1, fun _ h => some h⟩ 7 9).2)
        ⟨1, 2, 3⟩ :=
  (presearch_grid_argmin ⟨fun _ _ => ⟨0, 0, 0⟩, 0, 1, 0, 1, fun _ h => some h⟩ ⟨1, 2, 3⟩).2
    7 9 (by decide) (by decide)

end Truck
